import Mathlib

/-!
MIDI byte-stream parser (src/hid/midi_parser.cpp).

A shallow embedding of `MidiParser::Parse` and `MidiParser::Reset`, followed by
theorems about them.  Bytes, enumeration values and lengths are natural
numbers; the parser object is an explicit state value that every call takes
and returns; the output pointer `event_out` is an `Option` (`none` is the null
pointer, `some e` a slot that currently holds `e`).
-/

namespace daisy

/-! ## Constants and types declared in the header -/

/-- Modelled from the spec: the enumeration MidiMessageType lives in the header,
which is not among the sources.  The seven Channel Voice kinds are numbered by
the top nibble of their status byte (0x8_ .. 0xE_), minus 8. -/
def NoteOff : Nat := 0

/-- Modelled from the spec: MidiMessageType value of status 0x9_. -/
def NoteOn : Nat := 1

/-- Modelled from the spec: MidiMessageType value of status 0xA_. -/
def PolyphonicKeyPressure : Nat := 2

/-- Modelled from the spec: MidiMessageType value of status 0xB_. -/
def ControlChange : Nat := 3

/-- Modelled from the spec: MidiMessageType value of status 0xC_. -/
def ProgramChange : Nat := 4

/-- Modelled from the spec: MidiMessageType value of status 0xD_. -/
def ChannelPressure : Nat := 5

/-- Modelled from the spec: MidiMessageType value of status 0xE_. -/
def PitchBend : Nat := 6

/-- Modelled from the spec: MidiMessageType value of the System Common family
(status 0xF0 .. 0xF7, whose masked top nibble is 7). -/
def SystemCommon : Nat := 7

/-- Modelled from the spec: MidiMessageType value of the System Real-Time
family; it follows SystemCommon in the enumeration. -/
def SystemRealTime : Nat := 8

/-- Modelled from the spec: MidiMessageType value for Channel Mode messages;
the parser never produces it. -/
def ChannelMode : Nat := 9

/-- Modelled from the spec: the sentinel of MidiMessageType that stands for
"no running status"; it is the last enumerator. -/
def MessageLast : Nat := 10

/-- Modelled from the spec: SystemCommonType value of status 0xF0 (low three
bits 0). -/
def SystemExclusive : Nat := 0

/-- Modelled from the spec: SystemCommonType value of status 0xF7 (low three
bits 7). -/
def SysExEnd : Nat := 7

/-- Modelled from the spec: mask of the status bit (bit 7). -/
def kStatusByteMask : Nat := 0x80

/-- Modelled from the spec: mask of the message family bits of a status byte. -/
def kMessageMask : Nat := 0x70

/-- Modelled from the spec: mask of the seven data bits. -/
def kDataByteMask : Nat := 0x7F

/-- Modelled from the spec: mask of the channel nibble. -/
def kChannelMask : Nat := 0x0F

/-- Modelled from the spec: mask of the real-time subtype bits. -/
def kSystemRealTimeMask : Nat := 0x07

/-- Modelled from the spec: the enumeration ParserState of the header, with
the four phases Idle, AwaitingData0, AwaitingData1 and InSysEx. -/
inductive ParserState where
  | ParserEmpty
  | ParserHasStatus
  | ParserHasData0
  | ParserSysEx
deriving DecidableEq, Repr

open ParserState

/-- Modelled from the spec: the struct MidiEvent of the header.  The array
`data[2]` is the pair `data0`, `data1`; `sysex_data` is the fixed array of
`C = SYSEX_BUFFER_LEN` bytes, with the capacity as a parameter.  The length
`sysex_message_len` is a natural number: its only increment is guarded by
`sysex_message_len < SYSEX_BUFFER_LEN`, so it does not wrap in a field wide
enough to hold the capacity. -/
structure MidiEvent (C : Nat) where
  type : Nat
  channel : Nat
  data0 : Nat
  data1 : Nat
  sysex_data : Mathlib.Vector Nat C
  sysex_message_len : Nat
  sc_type : Nat
  srt_type : Nat
  cm_type : Nat
deriving DecidableEq

/-- The data members of class MidiParser: `pstate_`, `incoming_message_` and
`running_status_`. -/
structure MidiParser (C : Nat) where
  pstate_ : ParserState
  incoming_message_ : MidiEvent C
  running_status_ : Nat
deriving DecidableEq

/-- What one call of `Parse` leaves behind: the returned flag, the parser
object and the contents of the output slot. -/
structure ParseResult (C : Nat) where
  did_parse : Bool
  parser : MidiParser C
  event_out : Option (MidiEvent C)
deriving DecidableEq

/-- The guarded assignment `if (event_out != nullptr) *event_out = incoming_message_;`. -/
def assignOut {C : Nat} (event_out : Option (MidiEvent C)) (m : MidiEvent C) :
    Option (MidiEvent C) :=
  match event_out with
  | some _ => some m
  | none => none

/-! ## `MidiParser::Parse` -/

/-- The body of `MidiParser::Parse(byte, event_out)`.  The first argument
bounds the depth of the self-call of the `ParserHasStatus` case; `none` means
the bound was reached. -/
def ParseFuel {C : Nat} :
    Nat → MidiParser C → Nat → Option (MidiEvent C) → Option (ParseResult C)
  | 0, _, _, _ => none
  | fuel + 1, self, byte, event_out =>
    -- Handle real-time messages without altering the parser state
    if 0xF8 ≤ byte ∧ byte ≤ 0xFF then
      match event_out with
      | some e =>
        some ⟨true, self,
          some { e with type := SystemRealTime, srt_type := byte &&& kSystemRealTimeMask }⟩
      | none => some ⟨false, self, none⟩
    else
      -- Reset parser when a status byte is received (except during SysEx)
      let self : MidiParser C :=
        if byte &&& kStatusByteMask ≠ 0 ∧ self.pstate_ ≠ ParserSysEx then
          { self with pstate_ := ParserEmpty }
        else self
      match self.pstate_ with
      | ParserEmpty =>
        if byte &&& kStatusByteMask ≠ 0 then
          -- New status byte received
          let m : MidiEvent C :=
            { self.incoming_message_ with
              channel := byte &&& kChannelMask,
              type := (byte &&& kMessageMask) >>> 4 }
          if m.type = SystemRealTime then
            let m : MidiEvent C := { m with srt_type := byte &&& kSystemRealTimeMask }
            some ⟨true, { self with incoming_message_ := m, pstate_ := ParserEmpty },
              assignOut event_out m⟩
          else if m.type = SystemCommon then
            let m : MidiEvent C := { m with channel := 0, sc_type := byte &&& 0x07 }
            if m.sc_type = SystemExclusive then
              some ⟨false,
                { self with
                  pstate_ := ParserSysEx,
                  incoming_message_ := { m with sysex_message_len := 0 } },
                event_out⟩
            else
              some ⟨true, { self with incoming_message_ := m, pstate_ := ParserEmpty },
                assignOut event_out m⟩
          else
            -- Handle Channel Voice messages
            some ⟨false,
              { self with
                incoming_message_ := m,
                pstate_ := ParserHasStatus,
                running_status_ := m.type },
              event_out⟩
        else
          -- Handle running status
          if self.running_status_ ≠ MessageLast then
            let m : MidiEvent C :=
              { self.incoming_message_ with
                type := self.running_status_,
                data0 := byte &&& kDataByteMask }
            if self.running_status_ = ChannelPressure ∨ self.running_status_ = ProgramChange then
              some ⟨true, { self with incoming_message_ := m, pstate_ := ParserEmpty },
                assignOut event_out m⟩
            else
              some ⟨false, { self with incoming_message_ := m, pstate_ := ParserHasData0 },
                event_out⟩
          else
            some ⟨false, self, event_out⟩
      | ParserHasStatus =>
        if byte &&& kStatusByteMask = 0 then
          let m : MidiEvent C :=
            { self.incoming_message_ with data0 := byte &&& kDataByteMask }
          if self.running_status_ = ChannelPressure ∨ self.running_status_ = ProgramChange then
            some ⟨true, { self with incoming_message_ := m, pstate_ := ParserEmpty },
              assignOut event_out m⟩
          else
            some ⟨false, { self with incoming_message_ := m, pstate_ := ParserHasData0 },
              event_out⟩
        else
          -- New status byte received, reset parser
          ParseFuel fuel { self with pstate_ := ParserEmpty } byte event_out
      | ParserHasData0 =>
        if byte &&& kStatusByteMask = 0 then
          let m : MidiEvent C :=
            { self.incoming_message_ with data1 := byte &&& kDataByteMask }
          -- Handle NoteOn with velocity 0 as NoteOff
          let m : MidiEvent C :=
            if self.running_status_ = NoteOn ∧ m.data1 = 0 then { m with type := NoteOff }
            else m
          some ⟨true, { self with incoming_message_ := m, pstate_ := ParserEmpty },
            assignOut event_out m⟩
        else
          some ⟨false, { self with pstate_ := ParserEmpty }, event_out⟩
      | ParserSysEx =>
        if byte = 0xF7 then
          -- End of SysEx message
          some ⟨true, { self with pstate_ := ParserEmpty },
            assignOut event_out self.incoming_message_⟩
        else if h : self.incoming_message_.sysex_message_len < C then
          -- Store SysEx data
          let m : MidiEvent C :=
            { self.incoming_message_ with
              sysex_data :=
                self.incoming_message_.sysex_data.set
                  ⟨self.incoming_message_.sysex_message_len, h⟩ byte,
              sysex_message_len := self.incoming_message_.sysex_message_len + 1 }
          some ⟨false, { self with incoming_message_ := m }, event_out⟩
        else
          -- SysEx buffer overflow, discard excess data
          some ⟨false, { self with pstate_ := ParserEmpty }, event_out⟩

/-- One call `Parse(byte, event_out)` on the parser `self`: the body with room
for the outer call and one self-call (`ParseFuel_succ` shows that any positive
bound gives this very result, so the bound is never reached). -/
def Parse {C : Nat} (self : MidiParser C) (byte : Nat) (event_out : Option (MidiEvent C)) :
    ParseResult C :=
  (ParseFuel 2 self byte event_out).getD ⟨false, self, event_out⟩

/-- The method `MidiParser::Reset()`. -/
def Reset {C : Nat} (self : MidiParser C) : MidiParser C :=
  { self with
    pstate_ := ParserEmpty,
    incoming_message_ := { self.incoming_message_ with type := MessageLast },
    running_status_ := MessageLast }

/-- A run of calls: each entry is the byte of one call together with the
output slot handed to that call.  Returns the final parser and, per call, the
returned flag and the slot contents afterwards. -/
def ParseAll {C : Nat} (self : MidiParser C) :
    List (Nat × Option (MidiEvent C)) → MidiParser C × List (Bool × Option (MidiEvent C))
  | [] => (self, [])
  | (byte, event_out) :: rest =>
    let r := Parse self byte event_out
    let t := ParseAll r.parser rest
    (t.1, (r.did_parse, r.event_out) :: t.2)

/-- The SysEx payload an event carries: the first `sysex_message_len` bytes of
its buffer. -/
def payload {C : Nat} (e : MidiEvent C) : List Nat :=
  e.sysex_data.toList.take e.sysex_message_len

/-- A parser whose fields are all zero except for what `Reset` sets. -/
def freshParser (C : Nat) : MidiParser C :=
  Reset ⟨ParserEmpty, ⟨0, 0, 0, 0, Mathlib.Vector.replicate C 0, 0, 0, 0, 0⟩, 0⟩

/-- An output slot filled with zeros. -/
def zeroEvent (C : Nat) : MidiEvent C :=
  ⟨0, 0, 0, 0, Mathlib.Vector.replicate C 0, 0, 0, 0, 0⟩

/-- The message a two-data-byte Channel Voice run leaves in the pending slot:
kind (after the velocity-0 rewrite), channel and both data bytes. -/
def voiceMessage {C : Nat} (m : MidiEvent C) (k ch d0 d1 : Nat) : MidiEvent C :=
  { m with
    channel := ch, data0 := d0, data1 := d1,
    type := if k = NoteOn ∧ d1 = 0 then NoteOff else k }

/-- The run that shows what happens to the rest of an over-long SysEx message:
a Program Change (0xC0, 0x05), then 0xF0 with C+1 zero data bytes, then one
more data byte 0x01 with a non-null slot. -/
def overflowTailRun (C : Nat) : List (Nat × Option (MidiEvent C)) :=
  [(0xC0, none), (0x05, none)] ++
    ((0xF0, none) :: List.replicate (C + 1) (0x00, none)) ++ [(0x01, some (zeroEvent C))]

/-- The run that shows what a System Common byte does to running status:
NoteOn on channel 3 (0x93, 0x40, 0x7F), Tune Request (0xF6), then a data pair
sent with running status (0x41, 0x7F) with a non-null slot on the last call. -/
def commonThenRunningRun (C : Nat) : List (Nat × Option (MidiEvent C)) :=
  [(0x93, none), (0x40, none), (0x7F, none), (0xF6, none), (0x41, none),
    (0x7F, some (zeroEvent C))]

/-- The test of the early return of `Parse`: `byte >= 0xF8 && byte <= 0xFF`. -/
def isRealTime (byte : Nat) : Bool :=
  decide (0xF8 ≤ byte ∧ byte ≤ 0xFF)

/-- A run of calls with the calls that carry a real-time byte removed. -/
def dropRealTime {C : Nat} (calls : List (Nat × Option (MidiEvent C))) :
    List (Nat × Option (MidiEvent C)) :=
  calls.filter (fun c => !isRealTime c.1)

/-- The per-call results of a run, keeping only those of the calls whose byte
is not a real-time byte. -/
def nonRealTimeResults {C : Nat} (calls : List (Nat × Option (MidiEvent C)))
    (results : List (Bool × Option (MidiEvent C))) : List (Bool × Option (MidiEvent C)) :=
  ((calls.zip results).filter (fun p => !isRealTime p.1.1)).map Prod.snd

/-- The coupling between the phase, the running status and the pending
message that every call of `Parse` maintains and `Reset` establishes. -/
def Coupled {C : Nat} (s : MidiParser C) : Prop :=
  (s.running_status_ = MessageLast ∨ s.running_status_ ≤ PitchBend) ∧
  (s.running_status_ ≤ PitchBend → s.incoming_message_.channel ≤ 15) ∧
  (s.pstate_ = ParserHasStatus →
    s.running_status_ ≤ PitchBend ∧ s.incoming_message_.type = s.running_status_) ∧
  (s.pstate_ = ParserHasData0 →
    s.running_status_ ≤ PitchBend ∧ s.running_status_ ≠ ChannelPressure ∧
    s.running_status_ ≠ ProgramChange ∧ s.incoming_message_.type = s.running_status_ ∧
    s.incoming_message_.data0 ≤ 127) ∧
  (s.pstate_ = ParserSysEx →
    s.incoming_message_.type = SystemCommon ∧ s.incoming_message_.sc_type = SystemExclusive ∧
    s.incoming_message_.sysex_message_len ≤ C)

/-- The leaves of the control flow of `MidiParser::Parse`, one per path
through the early return and the four cases of the switch. -/
inductive Branch where
  | realTimeEarly
  | emptyStatusRealTime
  | emptySysExStart
  | emptyCommon
  | emptyVoiceStatus
  | emptyRunningOne
  | emptyRunningTwo
  | emptyOrphan
  | hasStatusOne
  | hasStatusTwo
  | hasStatusRestart
  | hasData0Data
  | hasData0Status
  | sysExEnd
  | sysExStore
  | sysExOverflow
deriving DecidableEq, Repr

open Branch

/-- The body of `MidiParser::Parse` once more, returning next to the result the
leaves that the call went through: `hasStatusRestart` is the self-call of the
`ParserHasStatus` case (followed by the leaves of the inner call),
`hasData0Status` the path of the `ParserHasData0` case that skips the `if`,
`emptyStatusRealTime` the System Real-Time branch of the `ParserEmpty` case. -/
def ParseTrace {C : Nat} :
    Nat → MidiParser C → Nat → Option (MidiEvent C) → Option (ParseResult C × List Branch)
  | 0, _, _, _ => none
  | fuel + 1, self, byte, event_out =>
    if 0xF8 ≤ byte ∧ byte ≤ 0xFF then
      match event_out with
      | some e =>
        some (⟨true, self,
          some { e with type := SystemRealTime, srt_type := byte &&& kSystemRealTimeMask }⟩,
          [realTimeEarly])
      | none => some (⟨false, self, none⟩, [realTimeEarly])
    else
      let self : MidiParser C :=
        if byte &&& kStatusByteMask ≠ 0 ∧ self.pstate_ ≠ ParserSysEx then
          { self with pstate_ := ParserEmpty }
        else self
      match self.pstate_ with
      | ParserEmpty =>
        if byte &&& kStatusByteMask ≠ 0 then
          let m : MidiEvent C :=
            { self.incoming_message_ with
              channel := byte &&& kChannelMask,
              type := (byte &&& kMessageMask) >>> 4 }
          if m.type = SystemRealTime then
            let m : MidiEvent C := { m with srt_type := byte &&& kSystemRealTimeMask }
            some (⟨true, { self with incoming_message_ := m, pstate_ := ParserEmpty },
              assignOut event_out m⟩, [emptyStatusRealTime])
          else if m.type = SystemCommon then
            let m : MidiEvent C := { m with channel := 0, sc_type := byte &&& 0x07 }
            if m.sc_type = SystemExclusive then
              some (⟨false,
                { self with
                  pstate_ := ParserSysEx,
                  incoming_message_ := { m with sysex_message_len := 0 } },
                event_out⟩, [emptySysExStart])
            else
              some (⟨true, { self with incoming_message_ := m, pstate_ := ParserEmpty },
                assignOut event_out m⟩, [emptyCommon])
          else
            some (⟨false,
              { self with
                incoming_message_ := m,
                pstate_ := ParserHasStatus,
                running_status_ := m.type },
              event_out⟩, [emptyVoiceStatus])
        else
          if self.running_status_ ≠ MessageLast then
            let m : MidiEvent C :=
              { self.incoming_message_ with
                type := self.running_status_,
                data0 := byte &&& kDataByteMask }
            if self.running_status_ = ChannelPressure ∨ self.running_status_ = ProgramChange then
              some (⟨true, { self with incoming_message_ := m, pstate_ := ParserEmpty },
                assignOut event_out m⟩, [emptyRunningOne])
            else
              some (⟨false, { self with incoming_message_ := m, pstate_ := ParserHasData0 },
                event_out⟩, [emptyRunningTwo])
          else
            some (⟨false, self, event_out⟩, [emptyOrphan])
      | ParserHasStatus =>
        if byte &&& kStatusByteMask = 0 then
          let m : MidiEvent C :=
            { self.incoming_message_ with data0 := byte &&& kDataByteMask }
          if self.running_status_ = ChannelPressure ∨ self.running_status_ = ProgramChange then
            some (⟨true, { self with incoming_message_ := m, pstate_ := ParserEmpty },
              assignOut event_out m⟩, [hasStatusOne])
          else
            some (⟨false, { self with incoming_message_ := m, pstate_ := ParserHasData0 },
              event_out⟩, [hasStatusTwo])
        else
          (ParseTrace fuel { self with pstate_ := ParserEmpty } byte event_out).map
            (fun r => (r.1, hasStatusRestart :: r.2))
      | ParserHasData0 =>
        if byte &&& kStatusByteMask = 0 then
          let m : MidiEvent C :=
            { self.incoming_message_ with data1 := byte &&& kDataByteMask }
          let m : MidiEvent C :=
            if self.running_status_ = NoteOn ∧ m.data1 = 0 then { m with type := NoteOff }
            else m
          some (⟨true, { self with incoming_message_ := m, pstate_ := ParserEmpty },
            assignOut event_out m⟩, [hasData0Data])
        else
          some (⟨false, { self with pstate_ := ParserEmpty }, event_out⟩, [hasData0Status])
      | ParserSysEx =>
        if byte = 0xF7 then
          some (⟨true, { self with pstate_ := ParserEmpty },
            assignOut event_out self.incoming_message_⟩, [sysExEnd])
        else if h : self.incoming_message_.sysex_message_len < C then
          let m : MidiEvent C :=
            { self.incoming_message_ with
              sysex_data :=
                self.incoming_message_.sysex_data.set
                  ⟨self.incoming_message_.sysex_message_len, h⟩ byte,
              sysex_message_len := self.incoming_message_.sysex_message_len + 1 }
          some (⟨false, { self with incoming_message_ := m }, event_out⟩, [sysExStore])
        else
          some (⟨false, { self with pstate_ := ParserEmpty }, event_out⟩, [sysExOverflow])

/-- The seven Channel Voice kinds of MidiMessageType. -/
def ChannelVoiceKind (k : Nat) : Prop :=
  k = NoteOff ∨ k = NoteOn ∨ k = PolyphonicKeyPressure ∨ k = ControlChange ∨
    k = ProgramChange ∨ k = ChannelPressure ∨ k = PitchBend

instance ChannelVoiceKind.decidable (k : Nat) : Decidable (ChannelVoiceKind k) := by
  unfold ChannelVoiceKind
  infer_instance

/-- A parser in phase `ParserSysEx` with an empty buffer of capacity 4, used as
a concrete state. -/
def sysexParser4 : MidiParser 4 :=
  ⟨ParserSysEx, zeroEvent 4, NoteOn⟩

/-- The SystemExclusive event with the one-byte payload 0x01 that the run
0xF0, 0x01, 0xF7 delivers after `Reset` of `sysexParser4`. -/
def sysexEvent4 : MidiEvent 4 :=
  ⟨SystemCommon, 0, 0, 0, ⟨[0x01, 0, 0, 0], rfl⟩, 1, SystemExclusive, 0, 0⟩

/-- The NoteOn event on channel 5 that the run 0x95, 0x40, 0x7F delivers after
`Reset` of a parser with a zeroed pending message. -/
def noteOnEvent4 : MidiEvent 4 :=
  ⟨NoteOn, 5, 0x40, 0x7F, Mathlib.Vector.replicate 4 0, 0, 0, 0, 0⟩

/-! ## Bit-level facts about bytes -/

theorem data_byte_status (b : Nat) (h : b < 128) : b &&& kStatusByteMask = 0 := by
  unfold kStatusByteMask
  interval_cases b <;> rfl

theorem data_byte_mask (b : Nat) (h : b < 128) : b &&& kDataByteMask = b := by
  unfold kDataByteMask
  interval_cases b <;> rfl

theorem status_byte_status (b : Nat) (h1 : 0x80 ≤ b) (h2 : b ≤ 0xFF) :
    b &&& kStatusByteMask ≠ 0 := by
  unfold kStatusByteMask
  interval_cases b <;> decide

theorem voice_status_kind (k ch : Nat) (hk : k ≤ 6) (hch : ch ≤ 15) :
    ((0x80 + 16 * k + ch) &&& kMessageMask) >>> 4 = k := by
  unfold kMessageMask
  interval_cases k <;> interval_cases ch <;> rfl

theorem voice_status_channel (k ch : Nat) (hk : k ≤ 6) (hch : ch ≤ 15) :
    (0x80 + 16 * k + ch) &&& kChannelMask = ch := by
  unfold kChannelMask
  interval_cases k <;> interval_cases ch <;> rfl

/-! ## Single-call lemmas -/

/-- Any positive bound on the self-call depth gives the result of `Parse`:
the self-call of the `ParserHasStatus` case is never reached, because a status
byte outside SysEx has already set the phase to `ParserEmpty`. -/
theorem ParseFuel_succ {C : Nat} (n : Nat) (s : MidiParser C) (b : Nat)
    (ev : Option (MidiEvent C)) :
    ParseFuel (n + 1) s b ev = some (Parse s b ev) := by
  obtain ⟨ps, m, rs⟩ := s
  by_cases hb : b &&& kStatusByteMask = 0 <;> cases ps <;> cases ev <;>
    simp [Parse, ParseFuel, hb] <;> split_ifs <;> simp

/-- A real-time byte with a non-null slot: the slot gets the type and the
subtype, the parser is returned as it was. -/
theorem Parse_realtime {C : Nat} (s : MidiParser C) (b : Nat) (e : MidiEvent C)
    (h1 : 0xF8 ≤ b) (h2 : b ≤ 0xFF) :
    Parse s b (some e) =
      ⟨true, s, some { e with type := SystemRealTime, srt_type := b &&& kSystemRealTimeMask }⟩ := by
  simp [Parse, ParseFuel, h1, h2]

/-- A real-time byte with a null slot: nothing is reported, nothing changes. -/
theorem Parse_realtime_null {C : Nat} (s : MidiParser C) (b : Nat)
    (h1 : 0xF8 ≤ b) (h2 : b ≤ 0xFF) :
    Parse s b none = ⟨false, s, none⟩ := by
  simp [Parse, ParseFuel, h1, h2]

/-- A Channel Voice status byte outside SysEx starts a message. -/
theorem Parse_voice_status {C : Nat} (s : MidiParser C) (hs : s.pstate_ ≠ ParserSysEx)
    (k ch : Nat) (hk : k ≤ 6) (hch : ch ≤ 15) (ev : Option (MidiEvent C)) :
    Parse s (0x80 + 16 * k + ch) ev =
      ⟨false,
        { pstate_ := ParserHasStatus,
          incoming_message_ := { s.incoming_message_ with channel := ch, type := k },
          running_status_ := k },
        ev⟩ := by
  have hst : (0x80 + 16 * k + ch) &&& kStatusByteMask ≠ 0 :=
    status_byte_status _ (by omega) (by omega)
  have hkind := voice_status_kind k ch hk hch
  have hchan := voice_status_channel k ch hk hch
  have hrt : ¬ (0xF8 ≤ 0x80 + 16 * k + ch ∧ 0x80 + 16 * k + ch ≤ 0xFF) := by omega
  have h8 : k ≠ SystemRealTime := by unfold SystemRealTime; omega
  have h7 : k ≠ SystemCommon := by unfold SystemCommon; omega
  generalize 0x80 + 16 * k + ch = b at hst hkind hchan hrt
  obtain ⟨ps, m, rs⟩ := s
  simp only at hs
  simp [Parse, ParseFuel, hrt, hst, hkind, hchan, hs, h8, h7]

/-- A data byte in phase `ParserHasStatus` is stored as the first data byte. -/
theorem Parse_data_HasStatus {C : Nat} (s : MidiParser C) (hs : s.pstate_ = ParserHasStatus)
    (b : Nat) (hb : b < 128) (ev : Option (MidiEvent C)) :
    Parse s b ev =
      if s.running_status_ = ChannelPressure ∨ s.running_status_ = ProgramChange then
        ⟨true,
          { s with
            incoming_message_ := { s.incoming_message_ with data0 := b },
            pstate_ := ParserEmpty },
          assignOut ev { s.incoming_message_ with data0 := b }⟩
      else
        ⟨false,
          { s with
            incoming_message_ := { s.incoming_message_ with data0 := b },
            pstate_ := ParserHasData0 },
          ev⟩ := by
  have hst := data_byte_status b hb
  have hm := data_byte_mask b hb
  have hrt : ¬ (0xF8 ≤ b ∧ b ≤ 0xFF) := by omega
  obtain ⟨ps, m, rs⟩ := s
  simp only at hs
  subst hs
  simp [Parse, ParseFuel, hrt, hst, hm]
  split_ifs <;> simp_all

/-- A data byte in phase `ParserHasData0` is stored as the second data byte and
completes the message. -/
theorem Parse_data_HasData0 {C : Nat} (s : MidiParser C) (hs : s.pstate_ = ParserHasData0)
    (b : Nat) (hb : b < 128) (ev : Option (MidiEvent C)) :
    Parse s b ev =
      ⟨true,
        { s with
          incoming_message_ :=
            if s.running_status_ = NoteOn ∧ b = 0 then
              { s.incoming_message_ with data1 := b, type := NoteOff }
            else { s.incoming_message_ with data1 := b },
          pstate_ := ParserEmpty },
        assignOut ev
          (if s.running_status_ = NoteOn ∧ b = 0 then
            { s.incoming_message_ with data1 := b, type := NoteOff }
          else { s.incoming_message_ with data1 := b })⟩ := by
  have hst := data_byte_status b hb
  have hm := data_byte_mask b hb
  have hrt : ¬ (0xF8 ≤ b ∧ b ≤ 0xFF) := by omega
  obtain ⟨ps, m, rs⟩ := s
  simp only at hs
  subst hs
  simp [Parse, ParseFuel, hrt, hst, hm]

/-- A data byte in phase `ParserEmpty`: running status, or dropped. -/
theorem Parse_data_Empty {C : Nat} (s : MidiParser C) (hs : s.pstate_ = ParserEmpty)
    (b : Nat) (hb : b < 128) (ev : Option (MidiEvent C)) :
    Parse s b ev =
      if s.running_status_ ≠ MessageLast then
        if s.running_status_ = ChannelPressure ∨ s.running_status_ = ProgramChange then
          ⟨true,
            { s with
              incoming_message_ :=
                { s.incoming_message_ with type := s.running_status_, data0 := b },
              pstate_ := ParserEmpty },
            assignOut ev { s.incoming_message_ with type := s.running_status_, data0 := b }⟩
        else
          ⟨false,
            { s with
              incoming_message_ :=
                { s.incoming_message_ with type := s.running_status_, data0 := b },
              pstate_ := ParserHasData0 },
            ev⟩
      else ⟨false, s, ev⟩ := by
  have hst := data_byte_status b hb
  have hm := data_byte_mask b hb
  have hrt : ¬ (0xF8 ≤ b ∧ b ≤ 0xFF) := by omega
  obtain ⟨ps, m, rs⟩ := s
  simp only at hs
  subst hs
  simp [Parse, ParseFuel, hrt, hst, hm]
  split_ifs <;> simp_all

/-- The byte 0xF0 outside SysEx opens a SysEx message. -/
theorem Parse_sysex_start {C : Nat} (s : MidiParser C) (hs : s.pstate_ ≠ ParserSysEx)
    (ev : Option (MidiEvent C)) :
    Parse s 0xF0 ev =
      ⟨false,
        { s with
          pstate_ := ParserSysEx,
          incoming_message_ :=
            { s.incoming_message_ with
              channel := 0, type := SystemCommon, sc_type := SystemExclusive,
              sysex_message_len := 0 } },
        ev⟩ := by
  have a1 : (0xF0 : Nat) &&& kStatusByteMask ≠ 0 := by decide
  have a2 : ((0xF0 : Nat) &&& kMessageMask) >>> 4 = SystemCommon := by decide
  have a3 : (0xF0 : Nat) &&& 0x07 = SystemExclusive := by decide
  have a4 : SystemCommon ≠ SystemRealTime := by decide
  have hrt : ¬ (0xF8 ≤ (0xF0 : Nat) ∧ (0xF0 : Nat) ≤ 0xFF) := by decide
  generalize (0xF0 : Nat) = b at a1 a2 a3 hrt
  obtain ⟨ps, m, rs⟩ := s
  simp only at hs
  simp [Parse, ParseFuel, hs, a1, a2, a3, a4, hrt]

/-- A System Common byte 0xF1 .. 0xF7 outside SysEx is a complete message. -/
theorem Parse_common_single {C : Nat} (s : MidiParser C) (hs : s.pstate_ ≠ ParserSysEx)
    (b : Nat) (h1 : 0xF1 ≤ b) (h2 : b ≤ 0xF7) (ev : Option (MidiEvent C)) :
    Parse s b ev =
      ⟨true,
        { s with
          pstate_ := ParserEmpty,
          incoming_message_ :=
            { s.incoming_message_ with
              channel := 0, type := SystemCommon, sc_type := b &&& 0x07 } },
        assignOut ev
          { s.incoming_message_ with
            channel := 0, type := SystemCommon, sc_type := b &&& 0x07 }⟩ := by
  have a1 : b &&& kStatusByteMask ≠ 0 := status_byte_status b (by omega) (by omega)
  have a2 : (b &&& kMessageMask) >>> 4 = SystemCommon := by
    unfold kMessageMask
    interval_cases b <;> rfl
  have a3 : b &&& 0x07 ≠ SystemExclusive := by
    unfold SystemExclusive
    interval_cases b <;> decide
  have a4 : SystemCommon ≠ SystemRealTime := by decide
  have hrt : ¬ (0xF8 ≤ b ∧ b ≤ 0xFF) := by omega
  obtain ⟨ps, m, rs⟩ := s
  simp only at hs
  simp [Parse, ParseFuel, hs, a1, a2, a3, a4, hrt]

/-- Inside SysEx, with room left, a byte other than 0xF7 and the real-time
bytes is appended to the buffer. -/
theorem Parse_sysex_store {C : Nat} (s : MidiParser C) (hs : s.pstate_ = ParserSysEx)
    (b : Nat) (hb : b ≠ 0xF7) (hrt : b < 0xF8)
    (h : s.incoming_message_.sysex_message_len < C) (ev : Option (MidiEvent C)) :
    Parse s b ev =
      ⟨false,
        { s with
          incoming_message_ :=
            { s.incoming_message_ with
              sysex_data :=
                s.incoming_message_.sysex_data.set ⟨s.incoming_message_.sysex_message_len, h⟩ b,
              sysex_message_len := s.incoming_message_.sysex_message_len + 1 } },
        ev⟩ := by
  have hrt2 : ¬ (0xF8 ≤ b ∧ b ≤ 0xFF) := by omega
  obtain ⟨ps, m, rs⟩ := s
  simp only at hs h
  subst hs
  simp [Parse, ParseFuel, hrt2, hb, h]

/-- Inside SysEx, with a full buffer, a byte other than 0xF7 and the real-time
bytes ends the SysEx phase without an event. -/
theorem Parse_sysex_overflow {C : Nat} (s : MidiParser C) (hs : s.pstate_ = ParserSysEx)
    (b : Nat) (hb : b ≠ 0xF7) (hrt : b < 0xF8)
    (h : ¬ s.incoming_message_.sysex_message_len < C) (ev : Option (MidiEvent C)) :
    Parse s b ev = ⟨false, { s with pstate_ := ParserEmpty }, ev⟩ := by
  have hrt2 : ¬ (0xF8 ≤ b ∧ b ≤ 0xFF) := by omega
  obtain ⟨ps, m, rs⟩ := s
  simp only at hs h
  subst hs
  simp [Parse, ParseFuel, hrt2, hb, h]

/-- Inside SysEx the byte 0xF7 delivers the pending message. -/
theorem Parse_sysex_end {C : Nat} (s : MidiParser C) (hs : s.pstate_ = ParserSysEx)
    (ev : Option (MidiEvent C)) :
    Parse s 0xF7 ev =
      ⟨true, { s with pstate_ := ParserEmpty }, assignOut ev s.incoming_message_⟩ := by
  obtain ⟨ps, m, rs⟩ := s
  simp only at hs
  subst hs
  simp [Parse, ParseFuel]

/-! ## Runs of calls -/

theorem ParseAll_nil {C : Nat} (s : MidiParser C) : ParseAll s [] = (s, []) := rfl

theorem ParseAll_cons {C : Nat} (s : MidiParser C) (b : Nat) (ev : Option (MidiEvent C))
    (rest : List (Nat × Option (MidiEvent C))) :
    ParseAll s ((b, ev) :: rest) =
      ((ParseAll (Parse s b ev).parser rest).1,
        ((Parse s b ev).did_parse, (Parse s b ev).event_out) ::
          (ParseAll (Parse s b ev).parser rest).2) := rfl

theorem ParseAll_append {C : Nat} (s : MidiParser C)
    (xs ys : List (Nat × Option (MidiEvent C))) :
    ParseAll s (xs ++ ys) =
      ((ParseAll (ParseAll s xs).1 ys).1, (ParseAll s xs).2 ++ (ParseAll (ParseAll s xs).1 ys).2) := by
  induction xs generalizing s with
  | nil => simp [ParseAll_nil]
  | cons x xs ih =>
    obtain ⟨b, ev⟩ := x
    simp [ParseAll_cons, ih]

/-- Status byte, first data byte, second data byte of a two-data-byte kind. -/
theorem run_two_data {C : Nat} (s : MidiParser C) (hs : s.pstate_ ≠ ParserSysEx)
    (k ch d0 d1 : Nat) (hk : k ≤ 6) (hk1 : k ≠ ChannelPressure) (hk2 : k ≠ ProgramChange)
    (hch : ch ≤ 15) (hd0 : d0 ≤ 127) (hd1 : d1 ≤ 127) (ev1 ev2 ev3 : Option (MidiEvent C)) :
    ParseAll s [(0x80 + 16 * k + ch, ev1), (d0, ev2), (d1, ev3)] =
      (⟨ParserEmpty, voiceMessage s.incoming_message_ k ch d0 d1, k⟩,
        [(false, ev1), (false, ev2),
          (true, assignOut ev3 (voiceMessage s.incoming_message_ k ch d0 d1))]) := by
  simp only [ParseAll_cons, ParseAll_nil]
  rw [Parse_voice_status s hs k ch hk hch ev1]
  rw [Parse_data_HasStatus _ rfl d0 (by omega) ev2]
  simp only [hk1, hk2, or_self, if_false]
  rw [Parse_data_HasData0 _ rfl d1 (by omega) ev3]
  unfold voiceMessage
  split_ifs <;> rfl

/-- A data pair sent with running status after a completed message. -/
theorem run_running_pair {C : Nat} (s : MidiParser C) (hs : s.pstate_ = ParserEmpty)
    (hr0 : s.running_status_ ≠ MessageLast) (hr1 : s.running_status_ ≠ ChannelPressure)
    (hr2 : s.running_status_ ≠ ProgramChange)
    (e0 e1 : Nat) (he0 : e0 ≤ 127) (he1 : e1 ≤ 127) (ev1 ev2 : Option (MidiEvent C)) :
    ParseAll s [(e0, ev1), (e1, ev2)] =
      (⟨ParserEmpty,
          voiceMessage s.incoming_message_ s.running_status_ s.incoming_message_.channel e0 e1,
          s.running_status_⟩,
        [(false, ev1),
          (true, assignOut ev2
            (voiceMessage s.incoming_message_ s.running_status_
              s.incoming_message_.channel e0 e1))]) := by
  simp only [ParseAll_cons, ParseAll_nil]
  rw [Parse_data_Empty s hs e0 (by omega) ev1]
  simp only [hr0, hr1, hr2, or_self, if_false, ne_eq, not_false_eq_true, if_true]
  rw [Parse_data_HasData0 _ rfl e1 (by omega) ev2]
  unfold voiceMessage
  split_ifs <;> rfl

theorem take_succ_set {α : Type} (l : List α) (m : Nat) (b : α) (h : m < l.length) :
    (l.set m b).take (m + 1) = l.take m ++ [b] := by
  induction l generalizing m with
  | nil => simp at h
  | cons a l ih =>
    cases m with
    | zero => simp
    | succ m =>
      simp only [List.length_cons, Nat.add_lt_add_iff_right] at h
      simp [ih m h]

/-- Inside SysEx, bytes other than 0xF7 and the real-time bytes, as long as
they fit, are appended in order: no event, the phase and the running status
stay, and the buffer grows by exactly these bytes. -/
theorem run_sysex_store {C : Nat} (calls : List (Nat × Option (MidiEvent C))) :
    ∀ s : MidiParser C, s.pstate_ = ParserSysEx →
      (∀ c ∈ calls, c.1 ≠ 0xF7 ∧ c.1 < 0xF8) →
      s.incoming_message_.sysex_message_len + calls.length ≤ C →
      (ParseAll s calls).2 = calls.map (fun c => (false, c.2)) ∧
      (ParseAll s calls).1.pstate_ = ParserSysEx ∧
      (ParseAll s calls).1.running_status_ = s.running_status_ ∧
      (ParseAll s calls).1.incoming_message_.sysex_message_len =
        s.incoming_message_.sysex_message_len + calls.length ∧
      (ParseAll s calls).1.incoming_message_.sysex_data.toList.take
          (s.incoming_message_.sysex_message_len + calls.length) =
        s.incoming_message_.sysex_data.toList.take s.incoming_message_.sysex_message_len ++
          calls.map Prod.fst ∧
      (ParseAll s calls).1.incoming_message_.type = s.incoming_message_.type ∧
      (ParseAll s calls).1.incoming_message_.channel = s.incoming_message_.channel ∧
      (ParseAll s calls).1.incoming_message_.sc_type = s.incoming_message_.sc_type := by
  induction calls with
  | nil =>
    intro s hs _ _
    simp [ParseAll_nil, hs]
  | cons c rest ih =>
    intro s hs hc hlen
    obtain ⟨b, ev⟩ := c
    have hb := hc (b, ev) (List.mem_cons_self _ _)
    simp only [List.length_cons] at hlen
    have hlt : s.incoming_message_.sysex_message_len < C := by omega
    have hstep := Parse_sysex_store s hs b hb.1 hb.2 hlt ev
    have hrest := ih (Parse s b ev).parser (by rw [hstep]; exact hs)
      (fun c hc2 => hc c (List.mem_cons_of_mem _ hc2))
      (by rw [hstep]; simp only; omega)
    rw [ParseAll_cons]
    rw [hstep] at hrest ⊢
    simp only at hrest ⊢
    obtain ⟨h1, h2, h3, h4, h5, h6, h7, h8⟩ := hrest
    refine ⟨?_, h2, h3, ?_, ?_, h6, h7, h8⟩
    · simp [h1]
    · rw [h4, List.length_cons]; omega
    · have e1 : s.incoming_message_.sysex_message_len + (rest.length + 1) =
          s.incoming_message_.sysex_message_len + 1 + rest.length := by omega
      rw [List.length_cons, e1, h5, Mathlib.Vector.toList_set]
      rw [take_succ_set _ _ _ (by simpa using hlt)]
      simp

/-- Inside SysEx, one byte more than fits: no event on any call, and the
last byte ends the SysEx phase; the running status is what it was. -/
theorem run_sysex_overflow {C : Nat} (calls : List (Nat × Option (MidiEvent C)))
    (s : MidiParser C) (hs : s.pstate_ = ParserSysEx)
    (hc : ∀ c ∈ calls, c.1 ≠ 0xF7 ∧ c.1 < 0xF8)
    (hle : s.incoming_message_.sysex_message_len ≤ C)
    (hlen : s.incoming_message_.sysex_message_len + calls.length = C + 1) :
    (ParseAll s calls).2 = calls.map (fun c => (false, c.2)) ∧
    (ParseAll s calls).1.pstate_ = ParserEmpty ∧
    (ParseAll s calls).1.running_status_ = s.running_status_ := by
  rcases List.eq_nil_or_concat calls with hnil | ⟨init, last, hcat⟩
  · subst hnil
    simp only [List.length_nil] at hlen
    exact absurd hlen (by omega)
  · subst hcat
    obtain ⟨b, ev⟩ := last
    rw [List.concat_eq_append] at hc hlen ⊢
    simp only [List.length_append, List.length_singleton] at hlen
    have hinit := run_sysex_store init s hs
      (fun c hc2 => hc c (List.mem_append_left _ hc2)) (by omega)
    obtain ⟨h1, h2, h3, h4, -, -, -, -⟩ := hinit
    have hb := hc (b, ev) (List.mem_append_right _ (List.mem_singleton_self _))
    have hstep := Parse_sysex_overflow (ParseAll s init).1 h2 b hb.1 hb.2
      (by rw [h4]; omega) ev
    rw [ParseAll_append, ParseAll_cons, ParseAll_nil, hstep]
    simp [h1, h3]

/-- The byte 0xF0 outside SysEx followed by one byte more than the buffer
holds: no event on any call, the phase ends as `ParserEmpty`, the running
status is what it was before the 0xF0. -/
theorem run_sysex_start_overflow {C : Nat} (s : MidiParser C) (hs : s.pstate_ ≠ ParserSysEx)
    (ev0 : Option (MidiEvent C)) (calls : List (Nat × Option (MidiEvent C)))
    (hc : ∀ c ∈ calls, c.1 ≠ 0xF7 ∧ c.1 < 0xF8) (hlen : calls.length = C + 1) :
    (ParseAll s ((0xF0, ev0) :: calls)).2 = (false, ev0) :: calls.map (fun c => (false, c.2)) ∧
    (ParseAll s ((0xF0, ev0) :: calls)).1.pstate_ = ParserEmpty ∧
    (ParseAll s ((0xF0, ev0) :: calls)).1.running_status_ = s.running_status_ := by
  have hstart := Parse_sysex_start s hs ev0
  have e_p : (Parse s 0xF0 ev0).parser.pstate_ = ParserSysEx := by rw [hstart]
  have e_len : (Parse s 0xF0 ev0).parser.incoming_message_.sysex_message_len = 0 := by
    rw [hstart]
  have e_rs : (Parse s 0xF0 ev0).parser.running_status_ = s.running_status_ := by
    rw [hstart]
  have e_did : (Parse s 0xF0 ev0).did_parse = false := by rw [hstart]
  have e_ev : (Parse s 0xF0 ev0).event_out = ev0 := by rw [hstart]
  have h := run_sysex_overflow calls (Parse s 0xF0 ev0).parser e_p hc
    (by rw [e_len]; omega) (by rw [e_len]; omega)
  obtain ⟨h1, h2, h3⟩ := h
  rw [ParseAll_cons]
  exact ⟨by rw [h1, e_did, e_ev], h2, by rw [h3, e_rs]⟩

/-- A real-time byte returns the parser as it was, with or without a slot. -/
theorem Parse_realtime_frame {C : Nat} (s : MidiParser C) (b : Nat)
    (ev : Option (MidiEvent C)) (h : isRealTime b = true) : (Parse s b ev).parser = s := by
  have h12 : 0xF8 ≤ b ∧ b ≤ 0xFF := by simpa [isRealTime] using h
  cases ev with
  | none => rw [Parse_realtime_null s b h12.1 h12.2]
  | some e => rw [Parse_realtime s b e h12.1 h12.2]

/-- For every capacity and every state outside SysEx: after NoteOn on channel
3, the byte 0xF6 and a data pair sent with running status, the last call emits
a NoteOn whose channel is 0. -/
theorem common_then_running {C : Nat} (s : MidiParser C) (hs : s.pstate_ ≠ ParserSysEx) :
    ∃ e : MidiEvent C,
      (ParseAll s (commonThenRunningRun C)).2.getLast? = some (true, some e) ∧
      e.type = NoteOn ∧ e.channel = 0 ∧ e.data0 = 0x41 ∧ e.data1 = 0x7F := by
  have h3 := run_two_data s hs NoteOn 3 0x40 0x7F (by decide) (by decide) (by decide)
    (by decide) (by decide) (by decide) none none none
  have happ := ParseAll_append s [(0x93, none), (0x40, none), (0x7F, none)]
    [(0xF6, none), (0x41, none), (0x7F, some (zeroEvent C))]
  have h3b : ParseAll s [(0x93, none), (0x40, none), (0x7F, none)] = _ := h3
  rw [h3b] at happ
  rw [ParseAll_cons _ 0xF6] at happ
  rw [Parse_common_single _ (fun h => ParserState.noConfusion h) 0xF6 (by decide) (by decide)
    none] at happ
  simp only at happ
  have n1 : NoteOn ≠ MessageLast := by decide
  have n2 : NoteOn ≠ ChannelPressure := by decide
  have n3 : NoteOn ≠ ProgramChange := by decide
  rw [run_running_pair _ rfl n1 n2 n3 0x41 0x7F (by decide)
    (by decide) none (some (zeroEvent C))] at happ
  unfold commonThenRunningRun
  have e1 : ([(0x93, none), (0x40, none), (0x7F, none), (0xF6, none), (0x41, none),
      (0x7F, some (zeroEvent C))] : List (Nat × Option (MidiEvent C))) =
      [(0x93, none), (0x40, none), (0x7F, none)] ++
        [(0xF6, none), (0x41, none), (0x7F, some (zeroEvent C))] := rfl
  rw [e1, happ]
  refine ⟨_, rfl, ?_, rfl, rfl, rfl⟩
  simp [voiceMessage, NoteOn]

/-! ## The coupling invariant -/

theorem kind_bits_le (b : Nat) : (b &&& kMessageMask) >>> 4 ≤ 7 := by
  have h : b &&& kMessageMask ≤ 0x70 := Nat.and_le_right
  rw [Nat.shiftRight_eq_div_pow]
  omega

theorem channel_bits_le (b : Nat) : b &&& kChannelMask ≤ 15 := Nat.and_le_right

theorem data_bits_le (b : Nat) : b &&& kDataByteMask ≤ 127 := Nat.and_le_right

theorem Coupled_Reset {C : Nat} (s : MidiParser C) : Coupled (Reset s) := by
  refine ⟨Or.inl rfl, ?_, ?_, ?_, ?_⟩
  · intro h
    exact absurd h (show ¬ MessageLast ≤ PitchBend by decide)
  · intro h
    exact ParserState.noConfusion h
  · intro h
    exact ParserState.noConfusion h
  · intro h
    exact ParserState.noConfusion h

theorem Coupled_Parse {C : Nat} (s : MidiParser C) (h : Coupled s) (b : Nat)
    (ev : Option (MidiEvent C)) : Coupled (Parse s b ev).parser := by
  have hk := kind_bits_le b
  have hc := channel_bits_le b
  have hd := data_bits_le b
  obtain ⟨ps, m, rs⟩ := s
  unfold Coupled at h ⊢
  simp only [PitchBend, MessageLast, ChannelPressure, ProgramChange, SystemCommon,
    SystemExclusive] at h ⊢
  obtain ⟨i1, i2, i3, i4, i5⟩ := h
  by_cases hrt : 0xF8 ≤ b ∧ b ≤ 0xFF
  · have hp : (Parse ⟨ps, m, rs⟩ b ev).parser = ⟨ps, m, rs⟩ := by
      cases ev with
      | none => rw [Parse_realtime_null _ b hrt.1 hrt.2]
      | some e => rw [Parse_realtime _ b e hrt.1 hrt.2]
    rw [hp]
    exact ⟨i1, i2, i3, i4, i5⟩
  · generalize hP : Parse ⟨ps, m, rs⟩ b ev = r
    by_cases hst : b &&& kStatusByteMask = 0
    · cases ps <;> simp at i3 i4 i5 <;> simp [Parse, ParseFuel, hrt, hst] at hP <;>
        split_ifs at hP <;> (try simp at hP) <;> subst hP <;> (try simp) <;>
        (try simp only [MessageLast, ChannelPressure, ProgramChange, SystemCommon,
          SystemExclusive, SystemRealTime, NoteOn, NoteOff] at *) <;>
        omega
    · cases ps <;> simp at i3 i4 i5 <;> simp [Parse, ParseFuel, hrt, hst] at hP <;>
        split_ifs at hP <;> (try simp at hP) <;> subst hP <;> (try simp) <;>
        (try simp only [MessageLast, ChannelPressure, ProgramChange, SystemCommon,
          SystemExclusive, SystemRealTime, NoteOn, NoteOff] at *) <;>
        omega

/-- Every state reached from `Reset` by a run of calls is coupled. -/
theorem Coupled_ParseAll {C : Nat} (calls : List (Nat × Option (MidiEvent C)))
    (s : MidiParser C) (h : Coupled s) : Coupled (ParseAll s calls).1 := by
  induction calls generalizing s with
  | nil => exact h
  | cons c rest ih =>
    obtain ⟨b, ev⟩ := c
    rw [ParseAll_cons]
    exact ih _ (Coupled_Parse s h b ev)

theorem ChannelVoiceKind_iff (k : Nat) : ChannelVoiceKind k ↔ k ≤ PitchBend := by
  unfold ChannelVoiceKind NoteOff NoteOn PolyphonicKeyPressure ControlChange ProgramChange
    ChannelPressure PitchBend
  omega

/-- What a call from a coupled state can emit: the type is at most
SystemRealTime; a Channel Voice event has its channel and data bytes in range;
a SystemExclusive event has a length within the capacity. -/
theorem Parse_event_of_Coupled {C : Nat} (s : MidiParser C) (h : Coupled s) (b : Nat)
    (ev : Option (MidiEvent C)) (e : MidiEvent C)
    (hdid : (Parse s b ev).did_parse = true) (hev : (Parse s b ev).event_out = some e) :
    e.type ≤ SystemRealTime ∧
    (e.type ≤ PitchBend →
      e.channel ≤ 15 ∧ e.data0 ≤ 127 ∧
      (e.type ≠ ProgramChange → e.type ≠ ChannelPressure → e.data1 ≤ 127)) ∧
    (e.type = SystemCommon → e.sc_type = SystemExclusive → e.sysex_message_len ≤ C) := by
  have hk := kind_bits_le b
  have hc := channel_bits_le b
  have hd := data_bits_le b
  obtain ⟨ps, m, rs⟩ := s
  unfold Coupled at h
  simp only [PitchBend, MessageLast, ChannelPressure, ProgramChange, SystemCommon,
    SystemExclusive, SystemRealTime] at h ⊢
  obtain ⟨i1, i2, i3, i4, i5⟩ := h
  by_cases hrt : 0xF8 ≤ b ∧ b ≤ 0xFF
  · cases ev with
    | none =>
      rw [Parse_realtime_null _ b hrt.1 hrt.2] at hdid
      exact absurd hdid (by simp)
    | some slot =>
      rw [Parse_realtime _ b slot hrt.1 hrt.2] at hev
      simp only [Option.some.injEq] at hev
      subst hev
      simp [SystemRealTime]
  · generalize hP : Parse ⟨ps, m, rs⟩ b ev = r at hdid hev
    by_cases hst : b &&& kStatusByteMask = 0
    · cases ps <;> cases ev <;> simp at i3 i4 i5 <;>
        simp [Parse, ParseFuel, hrt, hst, assignOut] at hP <;>
        split_ifs at hP <;> (try simp at hP) <;> subst hP <;>
        simp at hdid hev <;> (try subst hev) <;> (try simp) <;>
        (try simp only [MessageLast, ChannelPressure, ProgramChange, SystemCommon,
          SystemExclusive, SystemRealTime, NoteOn, NoteOff] at *) <;>
        omega
    · cases ps <;> cases ev <;> simp at i3 i4 i5 <;>
        simp [Parse, ParseFuel, hrt, hst, assignOut] at hP <;>
        split_ifs at hP <;> (try simp at hP) <;> subst hP <;>
        simp at hdid hev <;> (try subst hev) <;> (try simp) <;>
        (try simp only [MessageLast, ChannelPressure, ProgramChange, SystemCommon,
          SystemExclusive, SystemRealTime, NoteOn, NoteOff] at *) <;>
        omega

/-- A property that every call from a coupled state gives to the event it
emits holds for every event emitted in a run from a coupled state. -/
theorem ParseAll_emitted {C : Nat} (P : MidiEvent C → Prop)
    (hstep : ∀ (s : MidiParser C) (b : Nat) (ev : Option (MidiEvent C)) (e : MidiEvent C),
      Coupled s → (Parse s b ev).did_parse = true → (Parse s b ev).event_out = some e → P e)
    (calls : List (Nat × Option (MidiEvent C))) (s : MidiParser C) (h : Coupled s)
    (e : MidiEvent C) (hmem : (true, some e) ∈ (ParseAll s calls).2) : P e := by
  induction calls generalizing s with
  | nil => simp [ParseAll_nil] at hmem
  | cons c rest ih =>
    obtain ⟨b, ev⟩ := c
    rw [ParseAll_cons] at hmem
    simp only [List.mem_cons, Prod.mk.injEq] at hmem
    rcases hmem with ⟨h1, h2⟩ | hrest
    · exact hstep s b ev e h h1.symm h2.symm
    · exact ih _ (Coupled_Parse s h b ev) hrest

/-- One call leaves the SysEx buffer as it was or writes the byte at the
index given by the stored length, and the latter only when that length is
below the capacity. -/
theorem Parse_buffer_write {C : Nat} (s : MidiParser C) (b : Nat)
    (ev : Option (MidiEvent C)) :
    (Parse s b ev).parser.incoming_message_.sysex_data = s.incoming_message_.sysex_data ∨
    ∃ h : s.incoming_message_.sysex_message_len < C,
      (Parse s b ev).parser.incoming_message_.sysex_data =
        s.incoming_message_.sysex_data.set ⟨s.incoming_message_.sysex_message_len, h⟩ b := by
  obtain ⟨ps, m, rs⟩ := s
  by_cases hrt : 0xF8 ≤ b ∧ b ≤ 0xFF
  · left
    cases ev with
    | none => rw [Parse_realtime_null _ b hrt.1 hrt.2]
    | some e => rw [Parse_realtime _ b e hrt.1 hrt.2]
  · generalize hP : Parse ⟨ps, m, rs⟩ b ev = r
    by_cases hst : b &&& kStatusByteMask = 0
    · cases ps <;> simp [Parse, ParseFuel, hrt, hst] at hP <;>
        split_ifs at hP <;> (try simp at hP) <;> subst hP <;>
        first
          | (left; rfl)
          | (right; exact ⟨by assumption, rfl⟩)
    · cases ps <;> simp [Parse, ParseFuel, hrt, hst] at hP <;>
        split_ifs at hP <;> (try simp at hP) <;> subst hP <;>
        first
          | (left; rfl)
          | (right; exact ⟨by assumption, rfl⟩)

/-- From a coupled state, a call on a byte below 256 that emits a Channel Voice
event was given a data byte; a two-data-byte event comes from phase
`ParserHasData0` with the byte as data1 and the stored data0; a one-data-byte
event comes from `ParserEmpty` or `ParserHasStatus` with the byte as data0. -/
theorem Parse_voice_event_source {C : Nat} (s : MidiParser C) (h : Coupled s) (b : Nat)
    (hb : b < 256) (ev : Option (MidiEvent C)) (e : MidiEvent C)
    (hdid : (Parse s b ev).did_parse = true) (hev : (Parse s b ev).event_out = some e)
    (hv : e.type ≤ PitchBend) :
    b < 0x80 ∧
    (e.type ≠ ProgramChange → e.type ≠ ChannelPressure →
      s.pstate_ = ParserHasData0 ∧ e.data1 = b ∧ e.data0 = s.incoming_message_.data0) ∧
    (e.type = ProgramChange ∨ e.type = ChannelPressure →
      (s.pstate_ = ParserEmpty ∨ s.pstate_ = ParserHasStatus) ∧ e.data0 = b) := by
  have hk := kind_bits_le b
  obtain ⟨ps, m, rs⟩ := s
  unfold Coupled at h
  simp only [PitchBend, MessageLast, ChannelPressure, ProgramChange, SystemCommon,
    SystemExclusive, SystemRealTime] at h hv ⊢
  obtain ⟨i1, i2, i3, i4, i5⟩ := h
  by_cases hrt : 0xF8 ≤ b ∧ b ≤ 0xFF
  · cases ev with
    | none =>
      rw [Parse_realtime_null _ b hrt.1 hrt.2] at hdid
      exact absurd hdid (by simp)
    | some slot =>
      rw [Parse_realtime _ b slot hrt.1 hrt.2] at hev
      simp only [Option.some.injEq] at hev
      subst hev
      simp [SystemRealTime] at hv
  · generalize hP : Parse ⟨ps, m, rs⟩ b ev = r at hdid hev
    by_cases hb128 : b < 128
    · have hst := data_byte_status b hb128
      have hm := data_byte_mask b hb128
      cases ps <;> cases ev <;> simp at i3 i4 i5 <;>
        simp [Parse, ParseFuel, hrt, hst, hm, assignOut] at hP <;>
        split_ifs at hP <;> (try simp at hP) <;> subst hP <;>
        simp at hdid hev <;> (try subst hev) <;> (try simp) <;>
        (try simp only [MessageLast, ChannelPressure, ProgramChange, SystemCommon,
          SystemExclusive, SystemRealTime, NoteOn, NoteOff] at *) <;>
        omega
    · have hst := status_byte_status b (by omega) (by omega)
      cases ps <;> cases ev <;> simp at i3 i4 i5 <;>
        simp [Parse, ParseFuel, hrt, hst, assignOut] at hP <;>
        split_ifs at hP <;> (try simp at hP) <;> subst hP <;>
        simp at hdid hev <;> (try subst hev) <;> (try simp at hv) <;>
        (try simp only [MessageLast, ChannelPressure, ProgramChange, SystemCommon,
          SystemExclusive, SystemRealTime, NoteOn, NoteOff] at *) <;>
        omega

/-- How phase `ParserHasData0` is entered and kept: a call on a byte below 256
that ends in that phase either started in it and changed nothing, or started
elsewhere, was given a data byte and stored it as data0. -/
theorem Parse_enters_HasData0 {C : Nat} (s : MidiParser C) (b : Nat) (hb : b < 256)
    (ev : Option (MidiEvent C)) (hp : (Parse s b ev).parser.pstate_ = ParserHasData0) :
    (s.pstate_ = ParserHasData0 ∧ (Parse s b ev).parser = s) ∨
    (s.pstate_ ≠ ParserHasData0 ∧ b < 0x80 ∧
      (Parse s b ev).parser.incoming_message_.data0 = b) := by
  obtain ⟨ps, m, rs⟩ := s
  by_cases hrt : 0xF8 ≤ b ∧ b ≤ 0xFF
  · have hpar : (Parse ⟨ps, m, rs⟩ b ev).parser = ⟨ps, m, rs⟩ := by
      cases ev with
      | none => rw [Parse_realtime_null _ b hrt.1 hrt.2]
      | some e => rw [Parse_realtime _ b e hrt.1 hrt.2]
    rw [hpar] at hp ⊢
    exact Or.inl ⟨hp, rfl⟩
  · generalize hP : Parse ⟨ps, m, rs⟩ b ev = r at hp
    by_cases hb128 : b < 128
    · have hst := data_byte_status b hb128
      have hm := data_byte_mask b hb128
      cases ps <;> simp [Parse, ParseFuel, hrt, hst, hm] at hP <;>
        split_ifs at hP <;> (try simp at hP) <;> subst hP <;>
        simp at hp <;> simp <;> omega
    · have hst := status_byte_status b (by omega) (by omega)
      cases ps <;> simp [Parse, ParseFuel, hrt, hst] at hP <;>
        split_ifs at hP <;> (try simp at hP) <;> subst hP <;>
        simp at hp

/-! ## The instrumented body -/

/-- The instrumented body computes the result of the plain body, for every
bound on the self-call depth. -/
theorem ParseTrace_result {C : Nat} (n : Nat) (s : MidiParser C) (b : Nat)
    (ev : Option (MidiEvent C)) :
    (ParseTrace n s b ev).map Prod.fst = ParseFuel n s b ev := by
  induction n generalizing s with
  | zero => rfl
  | succ n ih =>
    obtain ⟨ps, m, rs⟩ := s
    by_cases hst : b &&& kStatusByteMask = 0 <;> cases ps <;> cases ev <;>
      simp [ParseTrace, ParseFuel, hst, ih] <;> split_ifs <;> simp

/-- One call goes through exactly one leaf, and that leaf is none of the
self-call of the `ParserHasStatus` case, the status-byte path of the
`ParserHasData0` case and the System Real-Time branch of the `ParserEmpty`
case. -/
theorem ParseTrace_leaf {C : Nat} (n : Nat) (s : MidiParser C) (b : Nat)
    (ev : Option (MidiEvent C)) :
    ∃ br : Branch, ParseTrace (n + 1) s b ev = some (Parse s b ev, [br]) ∧
      br ≠ hasStatusRestart ∧ br ≠ hasData0Status ∧ br ≠ emptyStatusRealTime := by
  have hk := kind_bits_le b
  have hk8 : (b &&& kMessageMask) >>> 4 ≠ SystemRealTime := by
    unfold SystemRealTime
    omega
  obtain ⟨ps, m, rs⟩ := s
  by_cases hst : b &&& kStatusByteMask = 0 <;> cases ps <;> cases ev <;>
    simp [ParseTrace, Parse, ParseFuel, hst, hk8] <;> split_ifs <;> simp

/-! ## Channel Voice messages -/

/-- C1: from every state outside SysEx, for every two-data-byte kind k, channel
ch and data bytes d0, d1, the status byte 0x80 + 16*k + ch and the byte d0
yield no event, and d1 yields one event with channel ch, data0 d0, data1 d1
and kind k (NoteOff when k is NoteOn and d1 is 0); afterwards the phase is
ParserEmpty and the running status is k. -/
theorem two_data_byte_decode {C : Nat} (s : MidiParser C) (hs : s.pstate_ ≠ ParserSysEx)
    (k ch d0 d1 : Nat)
    (hk : k = NoteOff ∨ k = NoteOn ∨ k = PolyphonicKeyPressure ∨ k = ControlChange ∨
      k = PitchBend)
    (hch : ch ≤ 15) (hd0 : d0 ≤ 127) (hd1 : d1 ≤ 127)
    (ev1 ev2 : Option (MidiEvent C)) (e3 : MidiEvent C) :
    ∃ (t : MidiParser C) (e : MidiEvent C),
      ParseAll s [(0x80 + 16 * k + ch, ev1), (d0, ev2), (d1, some e3)] =
        (t, [(false, ev1), (false, ev2), (true, some e)]) ∧
      e.channel = ch ∧ e.data0 = d0 ∧ e.data1 = d1 ∧
      e.type = (if k = NoteOn ∧ d1 = 0 then NoteOff else k) ∧
      t.pstate_ = ParserEmpty ∧ t.running_status_ = k := by
  have h6 : k ≤ 6 ∧ k ≠ ChannelPressure ∧ k ≠ ProgramChange := by
    unfold NoteOff NoteOn PolyphonicKeyPressure ControlChange PitchBend at hk
    unfold ChannelPressure ProgramChange
    omega
  exact ⟨_, _, run_two_data s hs k ch d0 d1 h6.1 h6.2.1 h6.2.2 hch hd0 hd1 ev1 ev2 (some e3),
    rfl, rfl, rfl, rfl, rfl, rfl⟩

theorem two_data_byte_decode_witness :
    ∃ (t : MidiParser 4) (e : MidiEvent 4),
      ParseAll (freshParser 4)
          [(0x80 + 16 * ControlChange + 5, none), (0x07, none), (0x64, some (zeroEvent 4))] =
        (t, [(false, none), (false, none), (true, some e)]) ∧
      e.channel = 5 ∧ e.data0 = 0x07 ∧ e.data1 = 0x64 ∧
      e.type = (if ControlChange = NoteOn ∧ 0x64 = 0 then NoteOff else ControlChange) ∧
      t.pstate_ = ParserEmpty ∧ t.running_status_ = ControlChange :=
  two_data_byte_decode (freshParser 4) (by decide) ControlChange 5 0x07 0x64
    (Or.inr (Or.inr (Or.inr (Or.inl rfl)))) (by decide) (by decide) (by decide)
    none none (zeroEvent 4)

/-- C2: from every state outside SysEx, the bytes 0x90 + ch, d0, d1 emit on
the third byte an event of kind NoteOff when d1 is 0 and NoteOn when d1 is in
1..127, with channel ch and data0 d0; and a message of any other
two-data-byte kind whose final data byte is 0 keeps its kind. -/
theorem velocity_zero_normalization {C : Nat} (s : MidiParser C)
    (hs : s.pstate_ ≠ ParserSysEx) (ch d0 d1 : Nat)
    (hch : ch ≤ 15) (hd0 : d0 ≤ 127) (hd1 : d1 ≤ 127)
    (ev1 ev2 : Option (MidiEvent C)) (e3 : MidiEvent C) :
    (∃ (t : MidiParser C) (e : MidiEvent C),
      ParseAll s [(0x90 + ch, ev1), (d0, ev2), (d1, some e3)] =
        (t, [(false, ev1), (false, ev2), (true, some e)]) ∧
      (d1 = 0 → e.type = NoteOff) ∧ (1 ≤ d1 → e.type = NoteOn) ∧
      e.channel = ch ∧ e.data0 = d0) ∧
    (∀ k : Nat,
      k = NoteOff ∨ k = PolyphonicKeyPressure ∨ k = ControlChange ∨ k = PitchBend →
      ∃ (t : MidiParser C) (e : MidiEvent C),
        ParseAll s [(0x80 + 16 * k + ch, ev1), (d0, ev2), (0, some e3)] =
          (t, [(false, ev1), (false, ev2), (true, some e)]) ∧
        e.type = k) := by
  constructor
  · have h := run_two_data s hs NoteOn ch d0 d1 (by decide) (by decide) (by decide)
      hch hd0 hd1 ev1 ev2 (some e3)
    refine ⟨_, _, h, ?_, ?_, rfl, rfl⟩
    · intro h0
      simp [voiceMessage, h0]
    · intro h1
      have : d1 ≠ 0 := by omega
      simp [voiceMessage, this]
  · intro k hk
    have h6 : k ≤ 6 ∧ k ≠ ChannelPressure ∧ k ≠ ProgramChange ∧ k ≠ NoteOn := by
      unfold NoteOff PolyphonicKeyPressure ControlChange PitchBend at hk
      unfold ChannelPressure ProgramChange NoteOn
      omega
    have h := run_two_data s hs k ch d0 0 h6.1 h6.2.1 h6.2.2.1 hch hd0 (by omega)
      ev1 ev2 (some e3)
    refine ⟨_, _, h, ?_⟩
    simp [voiceMessage, h6.2.2.2]

theorem velocity_zero_normalization_witness :
    (∃ (t : MidiParser 4) (e : MidiEvent 4),
      ParseAll (freshParser 4) [(0x90 + 0, none), (0x40, none), (0x00, some (zeroEvent 4))] =
        (t, [(false, none), (false, none), (true, some e)]) ∧
      ((0x00 : Nat) = 0 → e.type = NoteOff) ∧ (1 ≤ (0x00 : Nat) → e.type = NoteOn) ∧
      e.channel = 0 ∧ e.data0 = 0x40) ∧
    (∀ k : Nat,
      k = NoteOff ∨ k = PolyphonicKeyPressure ∨ k = ControlChange ∨ k = PitchBend →
      ∃ (t : MidiParser 4) (e : MidiEvent 4),
        ParseAll (freshParser 4) [(0x80 + 16 * k + 0, none), (0x40, none),
            (0, some (zeroEvent 4))] =
          (t, [(false, none), (false, none), (true, some e)]) ∧
        e.type = k) :=
  velocity_zero_normalization (freshParser 4) (by decide) 0 0x40 0x00
    (by decide) (by decide) (by decide) none none (zeroEvent 4)

/-- C3: from every state outside SysEx, status(k, ch), d0, d1, e0, e1 of a
two-data-byte kind k emits exactly two events, on the third and on the fifth
byte; the second has channel ch, data0 e0, data1 e1 and kind k (NoteOff when k
is NoteOn and e1 is 0).  After the third byte the running status is k, also
when the first event was a zero-velocity NoteOn reported as NoteOff. -/
theorem running_status_reuse {C : Nat} (s : MidiParser C) (hs : s.pstate_ ≠ ParserSysEx)
    (k ch d0 d1 e0 e1 : Nat)
    (hk : k = NoteOff ∨ k = NoteOn ∨ k = PolyphonicKeyPressure ∨ k = ControlChange ∨
      k = PitchBend)
    (hch : ch ≤ 15) (hd0 : d0 ≤ 127) (hd1 : d1 ≤ 127) (he0 : e0 ≤ 127) (he1 : e1 ≤ 127)
    (ev1 ev2 ev4 : Option (MidiEvent C)) (e3 e5 : MidiEvent C) :
    ∃ (t : MidiParser C) (x e : MidiEvent C),
      ParseAll s [(0x80 + 16 * k + ch, ev1), (d0, ev2), (d1, some e3), (e0, ev4),
          (e1, some e5)] =
        (t, [(false, ev1), (false, ev2), (true, some x), (false, ev4), (true, some e)]) ∧
      e.channel = ch ∧ e.data0 = e0 ∧ e.data1 = e1 ∧
      e.type = (if k = NoteOn ∧ e1 = 0 then NoteOff else k) ∧
      (ParseAll s [(0x80 + 16 * k + ch, ev1), (d0, ev2), (d1, some e3)]).1.running_status_ = k := by
  have h6 : k ≤ 6 ∧ k ≠ ChannelPressure ∧ k ≠ ProgramChange ∧ k ≠ MessageLast := by
    unfold NoteOff NoteOn PolyphonicKeyPressure ControlChange PitchBend at hk
    unfold ChannelPressure ProgramChange MessageLast
    omega
  have h3 := run_two_data s hs k ch d0 d1 h6.1 h6.2.1 h6.2.2.1 hch hd0 hd1 ev1 ev2 (some e3)
  have h5 := ParseAll_append s [(0x80 + 16 * k + ch, ev1), (d0, ev2), (d1, some e3)]
    [(e0, ev4), (e1, some e5)]
  rw [h3] at h5
  rw [run_running_pair _ rfl h6.2.2.2 h6.2.1 h6.2.2.1 e0 e1 he0 he1 ev4 (some e5)] at h5
  refine ⟨_, _, _, h5, rfl, rfl, rfl, rfl, ?_⟩
  rw [h3]

theorem running_status_reuse_witness :
    ∃ (t : MidiParser 4) (x e : MidiEvent 4),
      ParseAll (freshParser 4) [(0x80 + 16 * NoteOn + 0, none), (0x40, none),
          (0x00, some (zeroEvent 4)), (0x41, none), (0x7F, some (zeroEvent 4))] =
        (t, [(false, none), (false, none), (true, some x), (false, none), (true, some e)]) ∧
      e.channel = 0 ∧ e.data0 = 0x41 ∧ e.data1 = 0x7F ∧
      e.type = (if NoteOn = NoteOn ∧ 0x7F = 0 then NoteOff else NoteOn) ∧
      (ParseAll (freshParser 4) [(0x80 + 16 * NoteOn + 0, none), (0x40, none),
          (0x00, some (zeroEvent 4))]).1.running_status_ = NoteOn :=
  running_status_reuse (freshParser 4) (by decide) NoteOn 0 0x40 0x00 0x41 0x7F
    (Or.inr (Or.inl rfl)) (by decide) (by decide) (by decide) (by decide) (by decide)
    none none none (zeroEvent 4) (zeroEvent 4)

/-! ## System Real-Time bytes -/

/-- C4: in every state, a byte b in 0xF8..0xFF fed with a non-null output slot
yields one event, of type SystemRealTime, whose subtype is b & 0x07. -/
theorem realtime_event {C : Nat} (s : MidiParser C) (b : Nat) (slot : MidiEvent C)
    (h1 : 0xF8 ≤ b) (h2 : b ≤ 0xFF) :
    (Parse s b (some slot)).did_parse = true ∧
    ∃ e : MidiEvent C, (Parse s b (some slot)).event_out = some e ∧
      e.type = SystemRealTime ∧ e.srt_type = b &&& 0x07 ∧ e.srt_type = b - 0xF8 := by
  rw [Parse_realtime s b slot h1 h2]
  refine ⟨rfl, _, rfl, rfl, rfl, ?_⟩
  show b &&& 0x07 = b - 0xF8
  interval_cases b <;> rfl

theorem realtime_event_witness :
    (Parse (⟨ParserSysEx, zeroEvent 4, NoteOn⟩ : MidiParser 4) 0xFA
        (some (zeroEvent 4))).did_parse = true ∧
    ∃ e : MidiEvent 4,
      (Parse (⟨ParserSysEx, zeroEvent 4, NoteOn⟩ : MidiParser 4) 0xFA
        (some (zeroEvent 4))).event_out = some e ∧
      e.type = SystemRealTime ∧ e.srt_type = 0xFA &&& 0x07 ∧ e.srt_type = 0xFA - 0xF8 :=
  realtime_event ⟨ParserSysEx, zeroEvent 4, NoteOn⟩ 0xFA (zeroEvent 4) (by decide) (by decide)

/-- C5: in every state s, a byte b in 0xF8..0xFF leaves the parser equal to s
in every field (phase, running status and the whole pending message), whether
or not an output slot is supplied. -/
theorem realtime_frame {C : Nat} (s : MidiParser C) (b : Nat) (ev : Option (MidiEvent C))
    (h1 : 0xF8 ≤ b) (h2 : b ≤ 0xFF) :
    (Parse s b ev).parser = s := by
  cases ev with
  | none => rw [Parse_realtime_null s b h1 h2]
  | some e => rw [Parse_realtime s b e h1 h2]

theorem realtime_frame_witness :
    (Parse (⟨ParserHasData0, zeroEvent 4, NoteOn⟩ : MidiParser 4) 0xF8
        (some (zeroEvent 4))).parser = ⟨ParserHasData0, zeroEvent 4, NoteOn⟩ :=
  realtime_frame ⟨ParserHasData0, zeroEvent 4, NoteOn⟩ 0xF8 (some (zeroEvent 4))
    (by decide) (by decide)

/-! ## System Exclusive messages -/

/-- C6: from every state outside SysEx, 0xF0, then n <= C data bytes, then 0xF7
yields no event on the first n+1 bytes and one event on the 0xF7: type
SystemCommon, subtype SystemExclusive, payload length n and payload equal to
the data bytes in order; afterwards the phase is ParserEmpty. -/
theorem sysex_round_trip {C : Nat} (s : MidiParser C) (hs : s.pstate_ ≠ ParserSysEx)
    (calls : List (Nat × Option (MidiEvent C))) (hp : ∀ c ∈ calls, c.1 ≤ 0x7F)
    (hn : calls.length ≤ C) (ev0 : Option (MidiEvent C)) (slot : MidiEvent C) :
    ∃ (t : MidiParser C) (e : MidiEvent C),
      ParseAll s ((0xF0, ev0) :: (calls ++ [(0xF7, some slot)])) =
        (t, (false, ev0) :: (calls.map (fun c => (false, c.2)) ++ [(true, some e)])) ∧
      e.type = SystemCommon ∧ e.sc_type = SystemExclusive ∧
      e.sysex_message_len = calls.length ∧ payload e = calls.map Prod.fst ∧
      t.pstate_ = ParserEmpty := by
  have hstart := Parse_sysex_start s hs ev0
  have e_p : (Parse s 0xF0 ev0).parser.pstate_ = ParserSysEx := by rw [hstart]
  have e_len : (Parse s 0xF0 ev0).parser.incoming_message_.sysex_message_len = 0 := by
    rw [hstart]
  have e_ty : (Parse s 0xF0 ev0).parser.incoming_message_.type = SystemCommon := by
    rw [hstart]
  have e_sc : (Parse s 0xF0 ev0).parser.incoming_message_.sc_type = SystemExclusive := by
    rw [hstart]
  have e_did : (Parse s 0xF0 ev0).did_parse = false := by rw [hstart]
  have e_ev : (Parse s 0xF0 ev0).event_out = ev0 := by rw [hstart]
  have hstore := run_sysex_store calls (Parse s 0xF0 ev0).parser e_p
    (fun c hc => by have := hp c hc; omega) (by rw [e_len]; simpa using hn)
  obtain ⟨h1, h2, -, h4, h5, h6, -, h8⟩ := hstore
  rw [e_len] at h4 h5
  simp only [Nat.zero_add, List.take_zero, List.nil_append] at h4 h5
  have hend := Parse_sysex_end (ParseAll (Parse s 0xF0 ev0).parser calls).1 h2 (some slot)
  refine ⟨(Parse (ParseAll (Parse s 0xF0 ev0).parser calls).1 0xF7 (some slot)).parser,
    (ParseAll (Parse s 0xF0 ev0).parser calls).1.incoming_message_, ?_, ?_, ?_, ?_, ?_, ?_⟩
  · rw [ParseAll_cons, ParseAll_append, ParseAll_cons, ParseAll_nil, h1, e_did, e_ev]
    rw [hend]
    simp only [assignOut, List.cons_append]
  · rw [h6, e_ty]
  · rw [h8, e_sc]
  · exact h4
  · unfold payload
    rw [h4]
    exact h5
  · rw [hend]

theorem sysex_round_trip_witness :
    ∃ (t : MidiParser 4) (e : MidiEvent 4),
      ParseAll (freshParser 4)
          ((0xF0, none) :: ([(0x01, none), (0x02, none)] ++ [(0xF7, some (zeroEvent 4))])) =
        (t, (false, none) ::
          (([(0x01, none), (0x02, none)] : List (Nat × Option (MidiEvent 4))).map
            (fun c => (false, c.2)) ++ [(true, some e)])) ∧
      e.type = SystemCommon ∧ e.sc_type = SystemExclusive ∧
      e.sysex_message_len =
        ([(0x01, none), (0x02, none)] : List (Nat × Option (MidiEvent 4))).length ∧
      payload e =
        ([(0x01, none), (0x02, none)] : List (Nat × Option (MidiEvent 4))).map Prod.fst ∧
      t.pstate_ = ParserEmpty :=
  sysex_round_trip (freshParser 4) (by decide) [(0x01, none), (0x02, none)]
    (by decide) (by decide) none (zeroEvent 4)

/-- C7: from every state outside SysEx, 0xF0 followed by C+1 data bytes yields
no event on any of these C+2 calls and leaves the phase ParserEmpty; a 0xF7
fed next yields an event of subtype SysExEnd, not SystemExclusive. -/
theorem sysex_overflow_drops_message {C : Nat} (s : MidiParser C)
    (hs : s.pstate_ ≠ ParserSysEx) (calls : List (Nat × Option (MidiEvent C)))
    (hp : ∀ c ∈ calls, c.1 ≤ 0x7F) (hn : calls.length = C + 1)
    (ev0 : Option (MidiEvent C)) (slot : MidiEvent C) :
    (ParseAll s ((0xF0, ev0) :: calls)).2 =
      (false, ev0) :: calls.map (fun c => (false, c.2)) ∧
    (ParseAll s ((0xF0, ev0) :: calls)).1.pstate_ = ParserEmpty ∧
    ∃ e : MidiEvent C,
      (Parse (ParseAll s ((0xF0, ev0) :: calls)).1 0xF7 (some slot)).event_out = some e ∧
      e.type = SystemCommon ∧ e.sc_type = SysExEnd ∧ e.sc_type ≠ SystemExclusive := by
  have h := run_sysex_start_overflow s hs ev0 calls
    (fun c hc => by have := hp c hc; omega) hn
  obtain ⟨h1, h2, -⟩ := h
  refine ⟨h1, h2, ?_⟩
  have hne : (ParseAll s ((0xF0, ev0) :: calls)).1.pstate_ ≠ ParserSysEx := by
    rw [h2]; decide
  rw [Parse_common_single _ hne 0xF7 (by decide) (by decide) (some slot)]
  refine ⟨_, rfl, rfl, ?_, ?_⟩
  · show (0xF7 : Nat) &&& 0x07 = SysExEnd
    decide
  · show (0xF7 : Nat) &&& 0x07 ≠ SystemExclusive
    decide

theorem sysex_overflow_drops_message_witness :
    (ParseAll (freshParser 2) ((0xF0, none) :: [(0x01, none), (0x02, none), (0x03, none)])).2 =
      (false, none) ::
        ([(0x01, none), (0x02, none), (0x03, none)] :
          List (Nat × Option (MidiEvent 2))).map (fun c => (false, c.2)) ∧
    (ParseAll (freshParser 2)
      ((0xF0, none) :: [(0x01, none), (0x02, none), (0x03, none)])).1.pstate_ = ParserEmpty ∧
    ∃ e : MidiEvent 2,
      (Parse (ParseAll (freshParser 2)
        ((0xF0, none) :: [(0x01, none), (0x02, none), (0x03, none)])).1 0xF7
        (some (zeroEvent 2))).event_out = some e ∧
      e.type = SystemCommon ∧ e.sc_type = SysExEnd ∧ e.sc_type ≠ SystemExclusive :=
  sysex_overflow_drops_message (freshParser 2) (by decide)
    [(0x01, none), (0x02, none), (0x03, none)] (by decide) (by decide) none (zeroEvent 2)

/-- For every capacity, the data byte that follows an overflowed SysEx is
parsed with the running status from before the 0xF0: the last call of
`overflowTailRun` emits a Program Change. -/
theorem overflow_tail_emits {C : Nat} :
    ∃ e : MidiEvent C,
      (ParseAll (freshParser C) (overflowTailRun C)).2.getLast? = some (true, some e) ∧
      e.type = ProgramChange ∧ e.data0 = 0x01 := by
  unfold overflowTailRun
  rw [ParseAll_append, ParseAll_append]
  have hfresh : (freshParser C).pstate_ ≠ ParserSysEx := by
    show ParserEmpty ≠ ParserSysEx
    decide
  have hpc : (ParseAll (freshParser C) [(0xC0, none), (0x05, none)]).1.pstate_ = ParserEmpty ∧
      (ParseAll (freshParser C) [(0xC0, none), (0x05, none)]).1.running_status_ =
        ProgramChange := by
    simp only [ParseAll_cons, ParseAll_nil]
    have h0 : Parse (freshParser C) 0xC0 none = _ :=
      Parse_voice_status (freshParser C) hfresh ProgramChange 0 (by decide) (by decide) none
    rw [h0]
    rw [Parse_data_HasStatus _ rfl 0x05 (by decide) none]
    simp
  obtain ⟨hp1, hp2⟩ := hpc
  have hov := run_sysex_start_overflow
    (ParseAll (freshParser C) [(0xC0, none), (0x05, none)]).1 (by rw [hp1]; decide) none
    (List.replicate (C + 1) (0x00, none))
    (fun c hc => by rw [List.eq_of_mem_replicate hc]; simp) (by simp)
  obtain ⟨-, h2, h3⟩ := hov
  rw [hp2] at h3
  rw [ParseAll_cons _ 0x01 (some (zeroEvent C)) [], ParseAll_nil]
  rw [Parse_data_Empty _ h2 0x01 (by decide) (some (zeroEvent C)), h3]
  simp [assignOut, ProgramChange, MessageLast, ChannelPressure]

/-- C8 (the code at the failing input, capacity 128): after the Program Change
0xC0, 0x05 and an overflowed SysEx (0xF0 with 129 data bytes), the next data
byte 0x01 is not discarded: the call emits a Program Change with data0 = 1. -/
theorem overflow_tail_not_discarded :
    ∃ e : MidiEvent 128,
      (ParseAll (freshParser 128) (overflowTailRun 128)).2.getLast? = some (true, some e) ∧
      e.type = ProgramChange ∧ e.data0 = 0x01 :=
  overflow_tail_emits

/-! ## Status bytes in mid-message, and reset -/

/-- C9: in phase ParserHasStatus or ParserHasData0, a status byte b in
0x80..0xF7 gives the same result and the same parser as it does from the same
state with the phase set to ParserEmpty.  Hence, from every state t outside
SysEx, a two-data-byte status, one data byte, a second two-data-byte status
and its two data bytes emit exactly one event, on the fifth byte, built from
the second message alone (0x90, 0x40, 0x80, 0x30, 0x00 gives one NoteOff on
channel 0 with data0 = 0x30 and data1 = 0). -/
theorem status_aborts_and_restarts {C : Nat} (s t : MidiParser C)
    (hs : s.pstate_ = ParserHasStatus ∨ s.pstate_ = ParserHasData0)
    (b : Nat) (h1 : 0x80 ≤ b) (h2 : b ≤ 0xF7) (ev : Option (MidiEvent C))
    (ht : t.pstate_ ≠ ParserSysEx) (k ch d0 k2 ch2 x0 x1 : Nat)
    (hk : k = NoteOff ∨ k = NoteOn ∨ k = PolyphonicKeyPressure ∨ k = ControlChange ∨
      k = PitchBend)
    (hk2 : k2 = NoteOff ∨ k2 = NoteOn ∨ k2 = PolyphonicKeyPressure ∨ k2 = ControlChange ∨
      k2 = PitchBend)
    (hch : ch ≤ 15) (hch2 : ch2 ≤ 15) (hd0 : d0 ≤ 127) (hx0 : x0 ≤ 127) (hx1 : x1 ≤ 127)
    (ev1 ev2 ev3 ev4 : Option (MidiEvent C)) (slot : MidiEvent C) :
    Parse s b ev = Parse { s with pstate_ := ParserEmpty } b ev ∧
    ∃ (u : MidiParser C) (e : MidiEvent C),
      ParseAll t [(0x80 + 16 * k + ch, ev1), (d0, ev2), (0x80 + 16 * k2 + ch2, ev3),
          (x0, ev4), (x1, some slot)] =
        (u, [(false, ev1), (false, ev2), (false, ev3), (false, ev4), (true, some e)]) ∧
      e.type = (if k2 = NoteOn ∧ x1 = 0 then NoteOff else k2) ∧
      e.channel = ch2 ∧ e.data0 = x0 ∧ e.data1 = x1 := by
  constructor
  · have hst := status_byte_status b h1 (by omega)
    have hrt : ¬ (0xF8 ≤ b ∧ b ≤ 0xFF) := by omega
    apply Option.some.inj
    rw [← ParseFuel_succ 0 s b ev, ← ParseFuel_succ 0 { s with pstate_ := ParserEmpty } b ev]
    obtain ⟨ps, m, rs⟩ := s
    simp only at hs
    rcases hs with hs | hs <;> subst hs <;> simp [ParseFuel, hst, hrt]
  · have h6 : k ≤ 6 ∧ k ≠ ChannelPressure ∧ k ≠ ProgramChange := by
      unfold NoteOff NoteOn PolyphonicKeyPressure ControlChange PitchBend at hk
      unfold ChannelPressure ProgramChange
      omega
    have h6b : k2 ≤ 6 ∧ k2 ≠ ChannelPressure ∧ k2 ≠ ProgramChange := by
      unfold NoteOff NoteOn PolyphonicKeyPressure ControlChange PitchBend at hk2
      unfold ChannelPressure ProgramChange
      omega
    have hA : ParseAll t [(0x80 + 16 * k + ch, ev1), (d0, ev2)] =
        (⟨ParserHasData0, { t.incoming_message_ with channel := ch, type := k, data0 := d0 }, k⟩,
          [(false, ev1), (false, ev2)]) := by
      simp only [ParseAll_cons, ParseAll_nil]
      rw [Parse_voice_status t ht k ch h6.1 hch ev1]
      rw [Parse_data_HasStatus _ rfl d0 (by omega) ev2]
      simp only [h6.2.1, h6.2.2, or_self, if_false]
    have hB := ParseAll_append t [(0x80 + 16 * k + ch, ev1), (d0, ev2)]
      [(0x80 + 16 * k2 + ch2, ev3), (x0, ev4), (x1, some slot)]
    rw [hA] at hB
    rw [run_two_data _ (fun h => ParserState.noConfusion h) k2 ch2 x0 x1 h6b.1 h6b.2.1 h6b.2.2 hch2 hx0 hx1
      ev3 ev4 (some slot)] at hB
    exact ⟨_, _, hB, rfl, rfl, rfl, rfl⟩

theorem status_aborts_and_restarts_witness :
    Parse (⟨ParserHasData0, zeroEvent 4, NoteOn⟩ : MidiParser 4) 0x80 none =
      Parse { (⟨ParserHasData0, zeroEvent 4, NoteOn⟩ : MidiParser 4) with
        pstate_ := ParserEmpty } 0x80 none ∧
    ∃ (u : MidiParser 4) (e : MidiEvent 4),
      ParseAll (freshParser 4) [(0x80 + 16 * NoteOn + 0, none), (0x40, none),
          (0x80 + 16 * NoteOff + 0, none), (0x30, none), (0x00, some (zeroEvent 4))] =
        (u, [(false, none), (false, none), (false, none), (false, none), (true, some e)]) ∧
      e.type = (if NoteOff = NoteOn ∧ 0x00 = 0 then NoteOff else NoteOff) ∧
      e.channel = 0 ∧ e.data0 = 0x30 ∧ e.data1 = 0x00 :=
  status_aborts_and_restarts ⟨ParserHasData0, zeroEvent 4, NoteOn⟩ (freshParser 4)
    (Or.inr rfl) 0x80 (by decide) (by decide) none (by decide)
    NoteOn 0 0x40 NoteOff 0 0x30 0x00 (Or.inr (Or.inl rfl)) (Or.inl rfl)
    (by decide) (by decide) (by decide) (by decide) (by decide)
    none none none none (zeroEvent 4)

/-- C10: for every state s, Reset gives phase ParserEmpty and running status
MessageLast; and every data byte fed after Reset, however many, yields no
event and leaves the parser equal to the reset state. -/
theorem orphan_data_after_reset {C : Nat} (s : MidiParser C)
    (calls : List (Nat × Option (MidiEvent C))) (hp : ∀ c ∈ calls, c.1 ≤ 0x7F) :
    (Reset s).pstate_ = ParserEmpty ∧ (Reset s).running_status_ = MessageLast ∧
    ParseAll (Reset s) calls = (Reset s, calls.map (fun c => (false, c.2))) := by
  refine ⟨rfl, rfl, ?_⟩
  induction calls with
  | nil => rfl
  | cons c rest ih =>
    obtain ⟨b, ev⟩ := c
    have hb := hp (b, ev) (List.mem_cons_self _ _)
    have hstep := Parse_data_Empty (Reset s) rfl b (by simp only at hb; omega) ev
    have hrs : (Reset s).running_status_ = MessageLast := rfl
    simp only [hrs, ne_eq, not_true_eq_false, if_false] at hstep
    rw [ParseAll_cons, hstep]
    simp only
    rw [ih (fun c hc => hp c (List.mem_cons_of_mem _ hc))]
    simp

theorem orphan_data_after_reset_witness :
    (Reset (⟨ParserHasData0, zeroEvent 4, NoteOn⟩ : MidiParser 4)).pstate_ = ParserEmpty ∧
    (Reset (⟨ParserHasData0, zeroEvent 4, NoteOn⟩ : MidiParser 4)).running_status_ =
      MessageLast ∧
    ParseAll (Reset (⟨ParserHasData0, zeroEvent 4, NoteOn⟩ : MidiParser 4))
        [(0x40, some (zeroEvent 4)), (0x7F, none)] =
      (Reset (⟨ParserHasData0, zeroEvent 4, NoteOn⟩ : MidiParser 4),
        ([(0x40, some (zeroEvent 4)), (0x7F, none)] :
          List (Nat × Option (MidiEvent 4))).map (fun c => (false, c.2))) :=
  orphan_data_after_reset ⟨ParserHasData0, zeroEvent 4, NoteOn⟩
    [(0x40, some (zeroEvent 4)), (0x7F, none)] (by decide)

/-! ## One-data-byte kinds, System Common bytes, status bytes inside SysEx -/

/-- C11: from every state outside SysEx, for k ProgramChange or ChannelPressure,
the status byte 0x80 + 16*k + ch yields no event, the data byte d yields at
once an event of kind k, channel ch and data0 d with the phase back at
ParserEmpty, and a further data byte e (running status) yields at once a
second event of kind k, channel ch and data0 e. -/
theorem one_data_byte_kinds {C : Nat} (s : MidiParser C) (hs : s.pstate_ ≠ ParserSysEx)
    (k ch d e : Nat) (hk : k = ProgramChange ∨ k = ChannelPressure)
    (hch : ch ≤ 15) (hd : d ≤ 127) (he : e ≤ 127)
    (ev1 : Option (MidiEvent C)) (slot2 slot3 : MidiEvent C) :
    ∃ (t : MidiParser C) (x y : MidiEvent C),
      ParseAll s [(0x80 + 16 * k + ch, ev1), (d, some slot2), (e, some slot3)] =
        (t, [(false, ev1), (true, some x), (true, some y)]) ∧
      x.type = k ∧ x.channel = ch ∧ x.data0 = d ∧
      (ParseAll s [(0x80 + 16 * k + ch, ev1), (d, some slot2)]).1.pstate_ = ParserEmpty ∧
      y.type = k ∧ y.channel = ch ∧ y.data0 = e := by
  have h6 : k ≤ 6 ∧ (k = ChannelPressure ∨ k = ProgramChange) ∧ k ≠ MessageLast := by
    unfold ProgramChange ChannelPressure at hk
    unfold ChannelPressure ProgramChange MessageLast
    omega
  have h2 : ParseAll s [(0x80 + 16 * k + ch, ev1), (d, some slot2)] =
      (⟨ParserEmpty, { s.incoming_message_ with channel := ch, type := k, data0 := d }, k⟩,
        [(false, ev1),
          (true, some { s.incoming_message_ with channel := ch, type := k, data0 := d })]) := by
    simp only [ParseAll_cons, ParseAll_nil]
    rw [Parse_voice_status s hs k ch h6.1 hch ev1]
    rw [Parse_data_HasStatus _ rfl d (by omega) (some slot2)]
    simp only [h6.2.1, if_true, assignOut]
  have h3 := ParseAll_append s [(0x80 + 16 * k + ch, ev1), (d, some slot2)] [(e, some slot3)]
  rw [h2] at h3
  simp only [ParseAll_cons, ParseAll_nil] at h3
  rw [Parse_data_Empty _ rfl e (by omega) (some slot3)] at h3
  simp only [h6.2.1, h6.2.2, ne_eq, not_false_eq_true, if_true, assignOut] at h3
  refine ⟨_, _, _, h3, rfl, rfl, rfl, ?_, rfl, rfl, rfl⟩
  rw [h2]

theorem one_data_byte_kinds_witness :
    ∃ (t : MidiParser 4) (x y : MidiEvent 4),
      ParseAll (freshParser 4) [(0x80 + 16 * ProgramChange + 2, none),
          (0x05, some (zeroEvent 4)), (0x06, some (zeroEvent 4))] =
        (t, [(false, none), (true, some x), (true, some y)]) ∧
      x.type = ProgramChange ∧ x.channel = 2 ∧ x.data0 = 0x05 ∧
      (ParseAll (freshParser 4) [(0x80 + 16 * ProgramChange + 2, none),
          (0x05, some (zeroEvent 4))]).1.pstate_ = ParserEmpty ∧
      y.type = ProgramChange ∧ y.channel = 2 ∧ y.data0 = 0x06 :=
  one_data_byte_kinds (freshParser 4) (by decide) ProgramChange 2 0x05 0x06 (Or.inl rfl)
    (by decide) (by decide) (by decide) none (zeroEvent 4) (zeroEvent 4)

/-- C12: from every state outside SysEx, a byte b in 0xF1..0xF7 yields one
event at once, of type SystemCommon with subtype b & 0x07 and channel 0, and
leaves the phase ParserEmpty and the running status unchanged; the byte 0xF0
yields no event, sets the SysEx length to 0 and the phase to ParserSysEx, and
leaves the running status unchanged. -/
theorem system_common_single_byte {C : Nat} (s : MidiParser C) (hs : s.pstate_ ≠ ParserSysEx)
    (b : Nat) (h1 : 0xF1 ≤ b) (h2 : b ≤ 0xF7) (slot : MidiEvent C)
    (ev : Option (MidiEvent C)) :
    ((Parse s b (some slot)).did_parse = true ∧
      ∃ e : MidiEvent C, (Parse s b (some slot)).event_out = some e ∧
        e.type = SystemCommon ∧ e.sc_type = b &&& 0x07 ∧ e.channel = 0 ∧
        (Parse s b (some slot)).parser.pstate_ = ParserEmpty ∧
        (Parse s b (some slot)).parser.running_status_ = s.running_status_) ∧
    ((Parse s 0xF0 ev).did_parse = false ∧ (Parse s 0xF0 ev).event_out = ev ∧
      (Parse s 0xF0 ev).parser.incoming_message_.sysex_message_len = 0 ∧
      (Parse s 0xF0 ev).parser.pstate_ = ParserSysEx ∧
      (Parse s 0xF0 ev).parser.running_status_ = s.running_status_) := by
  constructor
  · rw [Parse_common_single s hs b h1 h2 (some slot)]
    exact ⟨rfl, _, rfl, rfl, rfl, rfl, rfl, rfl⟩
  · rw [Parse_sysex_start s hs ev]
    exact ⟨rfl, rfl, rfl, rfl, rfl⟩

theorem system_common_single_byte_witness :
    ((Parse (⟨ParserHasData0, zeroEvent 4, NoteOn⟩ : MidiParser 4) 0xF6
        (some (zeroEvent 4))).did_parse = true ∧
      ∃ e : MidiEvent 4,
        (Parse (⟨ParserHasData0, zeroEvent 4, NoteOn⟩ : MidiParser 4) 0xF6
          (some (zeroEvent 4))).event_out = some e ∧
        e.type = SystemCommon ∧ e.sc_type = 0xF6 &&& 0x07 ∧ e.channel = 0 ∧
        (Parse (⟨ParserHasData0, zeroEvent 4, NoteOn⟩ : MidiParser 4) 0xF6
          (some (zeroEvent 4))).parser.pstate_ = ParserEmpty ∧
        (Parse (⟨ParserHasData0, zeroEvent 4, NoteOn⟩ : MidiParser 4) 0xF6
          (some (zeroEvent 4))).parser.running_status_ =
            (⟨ParserHasData0, zeroEvent 4, NoteOn⟩ : MidiParser 4).running_status_) ∧
    ((Parse (⟨ParserHasData0, zeroEvent 4, NoteOn⟩ : MidiParser 4) 0xF0 none).did_parse = false ∧
      (Parse (⟨ParserHasData0, zeroEvent 4, NoteOn⟩ : MidiParser 4) 0xF0 none).event_out = none ∧
      (Parse (⟨ParserHasData0, zeroEvent 4, NoteOn⟩ : MidiParser 4) 0xF0
        none).parser.incoming_message_.sysex_message_len = 0 ∧
      (Parse (⟨ParserHasData0, zeroEvent 4, NoteOn⟩ : MidiParser 4) 0xF0
        none).parser.pstate_ = ParserSysEx ∧
      (Parse (⟨ParserHasData0, zeroEvent 4, NoteOn⟩ : MidiParser 4) 0xF0
        none).parser.running_status_ =
          (⟨ParserHasData0, zeroEvent 4, NoteOn⟩ : MidiParser 4).running_status_) :=
  system_common_single_byte ⟨ParserHasData0, zeroEvent 4, NoteOn⟩ (by decide) 0xF6
    (by decide) (by decide) (zeroEvent 4) none

/-- C16: in phase ParserSysEx with length n < C, a status byte b in 0x80..0xF6
yields no event, keeps the phase ParserSysEx and the running status, stores b
itself (high bit intact) at buffer index n and sets the length to n + 1. -/
theorem status_byte_inside_sysex {C : Nat} (s : MidiParser C) (hs : s.pstate_ = ParserSysEx)
    (hn : s.incoming_message_.sysex_message_len < C)
    (b : Nat) (h1 : 0x80 ≤ b) (h2 : b ≤ 0xF6) (ev : Option (MidiEvent C)) :
    (Parse s b ev).did_parse = false ∧ (Parse s b ev).event_out = ev ∧
    (Parse s b ev).parser.pstate_ = ParserSysEx ∧
    (Parse s b ev).parser.running_status_ = s.running_status_ ∧
    (Parse s b ev).parser.incoming_message_.sysex_data.get
      ⟨s.incoming_message_.sysex_message_len, hn⟩ = b ∧
    (∀ i : Fin C, i.val ≠ s.incoming_message_.sysex_message_len →
      (Parse s b ev).parser.incoming_message_.sysex_data.get i =
        s.incoming_message_.sysex_data.get i) ∧
    (Parse s b ev).parser.incoming_message_.sysex_message_len =
      s.incoming_message_.sysex_message_len + 1 ∧
    (Parse s b ev).parser.incoming_message_.type = s.incoming_message_.type ∧
    (Parse s b ev).parser.incoming_message_.sc_type = s.incoming_message_.sc_type := by
  rw [Parse_sysex_store s hs b (by omega) (by omega) hn ev]
  refine ⟨rfl, rfl, hs, rfl, ?_, ?_, rfl, rfl, rfl⟩
  · simp
  · intro i hi
    simp only
    rw [Mathlib.Vector.get_set_of_ne]
    intro h
    exact hi (by rw [← h])

theorem status_byte_inside_sysex_witness :
    (Parse (⟨ParserSysEx, zeroEvent 4, NoteOn⟩ : MidiParser 4) 0x90 none).did_parse = false ∧
    (Parse (⟨ParserSysEx, zeroEvent 4, NoteOn⟩ : MidiParser 4) 0x90 none).event_out = none ∧
    (Parse (⟨ParserSysEx, zeroEvent 4, NoteOn⟩ : MidiParser 4) 0x90 none).parser.pstate_ =
      ParserSysEx ∧
    (Parse (⟨ParserSysEx, zeroEvent 4, NoteOn⟩ : MidiParser 4) 0x90 none).parser.running_status_ =
      (⟨ParserSysEx, zeroEvent 4, NoteOn⟩ : MidiParser 4).running_status_ ∧
    (Parse (⟨ParserSysEx, zeroEvent 4, NoteOn⟩ : MidiParser 4) 0x90
      none).parser.incoming_message_.sysex_data.get
      ⟨(⟨ParserSysEx, zeroEvent 4, NoteOn⟩ : MidiParser 4).incoming_message_.sysex_message_len,
        by decide⟩ = 0x90 ∧
    (∀ i : Fin 4,
      i.val ≠ (⟨ParserSysEx, zeroEvent 4, NoteOn⟩ : MidiParser 4).incoming_message_.sysex_message_len →
      (Parse (⟨ParserSysEx, zeroEvent 4, NoteOn⟩ : MidiParser 4) 0x90
        none).parser.incoming_message_.sysex_data.get i =
        (⟨ParserSysEx, zeroEvent 4, NoteOn⟩ : MidiParser 4).incoming_message_.sysex_data.get i) ∧
    (Parse (⟨ParserSysEx, zeroEvent 4, NoteOn⟩ : MidiParser 4) 0x90
      none).parser.incoming_message_.sysex_message_len =
      (⟨ParserSysEx, zeroEvent 4, NoteOn⟩ : MidiParser 4).incoming_message_.sysex_message_len + 1 ∧
    (Parse (⟨ParserSysEx, zeroEvent 4, NoteOn⟩ : MidiParser 4) 0x90
      none).parser.incoming_message_.type =
      (⟨ParserSysEx, zeroEvent 4, NoteOn⟩ : MidiParser 4).incoming_message_.type ∧
    (Parse (⟨ParserSysEx, zeroEvent 4, NoteOn⟩ : MidiParser 4) 0x90
      none).parser.incoming_message_.sc_type =
      (⟨ParserSysEx, zeroEvent 4, NoteOn⟩ : MidiParser 4).incoming_message_.sc_type :=
  status_byte_inside_sysex ⟨ParserSysEx, zeroEvent 4, NoteOn⟩ rfl (by decide) 0x90
    (by decide) (by decide) none

/-! ## Running status across System Common messages -/

/-- C13 (the code at the failing input, capacity 128): after Reset, the bytes
0x93, 0x40, 0x7F, 0xF6, 0x41, 0x7F end with a NoteOn, so the kind of the
running status is kept, but its channel is 0 and not 3: the byte 0xF6 has set
the channel of the pending message to 0 and running status restores the kind
only. -/
theorem running_status_channel_lost :
    ∃ e : MidiEvent 128,
      (ParseAll (freshParser 128) (commonThenRunningRun 128)).2.getLast? =
        some (true, some e) ∧
      e.type = NoteOn ∧ e.channel = 0 ∧ e.data0 = 0x41 ∧ e.data1 = 0x7F :=
  common_then_running (freshParser 128) (fun h => ParserState.noConfusion h)

/-! ## Real-time bytes inside a stream -/

/-- C17: for every state and every run of calls, removing the calls that
carry a byte in 0xF8..0xFF changes neither the final parser nor the results of
the remaining calls, in order; for instance 0xF0, 0x01, 0xF8, 0x02, 0xF7
delivers the payload 0x01, 0x02. -/
theorem realtime_transparent {C : Nat} (s : MidiParser C)
    (calls : List (Nat × Option (MidiEvent C))) :
    (ParseAll s calls).1 = (ParseAll s (dropRealTime calls)).1 ∧
    nonRealTimeResults calls (ParseAll s calls).2 = (ParseAll s (dropRealTime calls)).2 ∧
    (ParseAll (freshParser 4)
        [(0xF0, none), (0x01, none), (0xF8, none), (0x02, none),
          (0xF7, some (zeroEvent 4))]).2.getLast?.map (fun o => (o.1, o.2.map payload)) =
      some (true, some [0x01, 0x02]) := by
  refine ⟨?_, ?_, by decide⟩
  · induction calls generalizing s with
    | nil => rfl
    | cons c rest ih =>
      obtain ⟨b, ev⟩ := c
      by_cases hb : isRealTime b = true
      · have hd : dropRealTime ((b, ev) :: rest) = dropRealTime rest := by
          simp [dropRealTime, hb]
        rw [hd, ParseAll_cons, Parse_realtime_frame s b ev hb]
        exact ih s
      · have hd : dropRealTime ((b, ev) :: rest) = (b, ev) :: dropRealTime rest := by
          simp [dropRealTime, hb]
        rw [hd, ParseAll_cons, ParseAll_cons]
        exact ih _
  · induction calls generalizing s with
    | nil => rfl
    | cons c rest ih =>
      obtain ⟨b, ev⟩ := c
      by_cases hb : isRealTime b = true
      · have hd : dropRealTime ((b, ev) :: rest) = dropRealTime rest := by
          simp [dropRealTime, hb]
        rw [hd, ParseAll_cons]
        have hn : nonRealTimeResults ((b, ev) :: rest)
            (((Parse s b ev).did_parse, (Parse s b ev).event_out) ::
              (ParseAll (Parse s b ev).parser rest).2) =
            nonRealTimeResults rest (ParseAll (Parse s b ev).parser rest).2 := by
          simp [nonRealTimeResults, hb]
        rw [hn, Parse_realtime_frame s b ev hb]
        exact ih s
      · have hd : dropRealTime ((b, ev) :: rest) = (b, ev) :: dropRealTime rest := by
          simp [dropRealTime, hb]
        rw [hd, ParseAll_cons, ParseAll_cons]
        have hn : nonRealTimeResults ((b, ev) :: rest)
            (((Parse s b ev).did_parse, (Parse s b ev).event_out) ::
              (ParseAll (Parse s b ev).parser rest).2) =
            ((Parse s b ev).did_parse, (Parse s b ev).event_out) ::
              nonRealTimeResults rest (ParseAll (Parse s b ev).parser rest).2 := by
          simp [nonRealTimeResults, hb]
        rw [hn, ih _]

/-! ## Invariants of runs that start with Reset -/

/-- C14: in every run that starts with Reset, every emitted event has a type
other than MessageLast; an emitted event that is neither System Common nor
System Real-Time is of one of the seven Channel Voice kinds; and an emitted
Channel Voice event has its channel in 0..15, data0 in 0..127 and, when its
kind takes two data bytes, data1 in 0..127. -/
theorem voice_event_ranges {C : Nat} (s0 : MidiParser C)
    (calls : List (Nat × Option (MidiEvent C))) (e : MidiEvent C)
    (hmem : (true, some e) ∈ (ParseAll (Reset s0) calls).2) :
    e.type ≠ MessageLast ∧
    (e.type ≠ SystemCommon → e.type ≠ SystemRealTime → ChannelVoiceKind e.type) ∧
    (ChannelVoiceKind e.type →
      e.channel ≤ 15 ∧ e.data0 ≤ 127 ∧
      (e.type ≠ ProgramChange → e.type ≠ ChannelPressure → e.data1 ≤ 127)) := by
  have h := ParseAll_emitted
    (fun e : MidiEvent C =>
      e.type ≤ SystemRealTime ∧
      (e.type ≤ PitchBend →
        e.channel ≤ 15 ∧ e.data0 ≤ 127 ∧
        (e.type ≠ ProgramChange → e.type ≠ ChannelPressure → e.data1 ≤ 127)) ∧
      (e.type = SystemCommon → e.sc_type = SystemExclusive → e.sysex_message_len ≤ C))
    (fun s b ev e hc hd he => Parse_event_of_Coupled s hc b ev e hd he)
    calls (Reset s0) (Coupled_Reset s0) e hmem
  obtain ⟨h1, h2, -⟩ := h
  refine ⟨?_, ?_, ?_⟩
  · unfold SystemRealTime at h1
    unfold MessageLast
    omega
  · intro h7 h8
    rw [ChannelVoiceKind_iff]
    unfold SystemRealTime at h1 h8
    unfold SystemCommon at h7
    unfold PitchBend
    omega
  · intro hv
    exact h2 ((ChannelVoiceKind_iff _).1 hv)

theorem voice_event_ranges_witness :
    noteOnEvent4.type ≠ MessageLast ∧
    (noteOnEvent4.type ≠ SystemCommon → noteOnEvent4.type ≠ SystemRealTime →
      ChannelVoiceKind noteOnEvent4.type) ∧
    (ChannelVoiceKind noteOnEvent4.type →
      noteOnEvent4.channel ≤ 15 ∧ noteOnEvent4.data0 ≤ 127 ∧
      (noteOnEvent4.type ≠ ProgramChange → noteOnEvent4.type ≠ ChannelPressure →
        noteOnEvent4.data1 ≤ 127)) :=
  voice_event_ranges sysexParser4 [(0x95, none), (0x40, none), (0x7F, some (zeroEvent 4))]
    noteOnEvent4 (by decide)

/-- C15: for every state and byte, one call leaves the SysEx buffer as it was
or writes the byte once, at the index given by the stored length and only
when that length is below the capacity C; and in every run that starts with
Reset, whether or not it emitted anything, the length is at most C whenever
the phase is ParserSysEx, and every SystemExclusive event the run emitted has
a length of at most C. -/
theorem sysex_buffer_bounded {C : Nat} (s : MidiParser C) (b : Nat)
    (ev : Option (MidiEvent C)) (s0 : MidiParser C)
    (calls : List (Nat × Option (MidiEvent C))) :
    ((Parse s b ev).parser.incoming_message_.sysex_data = s.incoming_message_.sysex_data ∨
      ∃ h : s.incoming_message_.sysex_message_len < C,
        (Parse s b ev).parser.incoming_message_.sysex_data =
          s.incoming_message_.sysex_data.set ⟨s.incoming_message_.sysex_message_len, h⟩ b) ∧
    ((ParseAll (Reset s0) calls).1.pstate_ = ParserSysEx →
      (ParseAll (Reset s0) calls).1.incoming_message_.sysex_message_len ≤ C) ∧
    (∀ e : MidiEvent C, (true, some e) ∈ (ParseAll (Reset s0) calls).2 →
      e.type = SystemCommon → e.sc_type = SystemExclusive → e.sysex_message_len ≤ C) := by
  refine ⟨Parse_buffer_write s b ev, ?_, ?_⟩
  · intro hp
    exact ((Coupled_ParseAll calls (Reset s0) (Coupled_Reset s0)).2.2.2.2 hp).2.2
  · intro e hmem
    have h := ParseAll_emitted
      (fun e : MidiEvent C =>
        e.type ≤ SystemRealTime ∧
        (e.type ≤ PitchBend →
          e.channel ≤ 15 ∧ e.data0 ≤ 127 ∧
          (e.type ≠ ProgramChange → e.type ≠ ChannelPressure → e.data1 ≤ 127)) ∧
        (e.type = SystemCommon → e.sc_type = SystemExclusive → e.sysex_message_len ≤ C))
      (fun s b ev e hc hd he => Parse_event_of_Coupled s hc b ev e hd he)
      calls (Reset s0) (Coupled_Reset s0) e hmem
    exact h.2.2

theorem sysex_buffer_bounded_witness :
    (∃ h : sysexParser4.incoming_message_.sysex_message_len < 4,
      (Parse sysexParser4 0x01 none).parser.incoming_message_.sysex_data =
        sysexParser4.incoming_message_.sysex_data.set
          ⟨sysexParser4.incoming_message_.sysex_message_len, h⟩ 0x01) ∧
    (ParseAll (Reset sysexParser4) [(0xF0, none), (0x01, none)]).1.pstate_ = ParserSysEx ∧
    (ParseAll (Reset sysexParser4)
      [(0xF0, none), (0x01, none)]).1.incoming_message_.sysex_message_len ≤ 4 ∧
    (true, some sysexEvent4) ∈
      (ParseAll (Reset sysexParser4)
        [(0xF0, none), (0x01, none), (0xF7, some (zeroEvent 4))]).2 ∧
    sysexEvent4.type = SystemCommon ∧ sysexEvent4.sc_type = SystemExclusive ∧
    sysexEvent4.sysex_message_len ≤ 4 :=
  ⟨((sysex_buffer_bounded sysexParser4 0x01 none sysexParser4 []).1).resolve_left
      (by decide),
    by decide,
    (sysex_buffer_bounded sysexParser4 0x01 none sysexParser4
      [(0xF0, none), (0x01, none)]).2.1 (by decide),
    by decide, rfl, rfl,
    (sysex_buffer_bounded sysexParser4 0x01 none sysexParser4
      [(0xF0, none), (0x01, none), (0xF7, some (zeroEvent 4))]).2.2 sysexEvent4
      (by decide) rfl rfl⟩

/-- C18: in every run that starts with Reset, a call (on a byte below 256) that
emits a Channel Voice event was given a data byte; for a two-data-byte kind
the phase before the call was ParserHasData0, data1 is the byte and data0 is
the data0 stored in that phase; for a one-data-byte kind the phase before the
call was ParserEmpty or ParserHasStatus and data0 is the byte.  The data0
stored in phase ParserHasData0 is the data byte of the call that entered the
phase: a call that ends in ParserHasData0 either started there and changed
nothing, or was given a data byte and stored it as data0. -/
theorem voice_event_on_last_data_byte {C : Nat} (s0 : MidiParser C)
    (calls : List (Nat × Option (MidiEvent C))) (b : Nat) (hb : b < 256)
    (ev : Option (MidiEvent C)) (e : MidiEvent C)
    (hdid : (Parse (ParseAll (Reset s0) calls).1 b ev).did_parse = true)
    (hev : (Parse (ParseAll (Reset s0) calls).1 b ev).event_out = some e)
    (hv : ChannelVoiceKind e.type)
    (t : MidiParser C) (b2 : Nat) (hb2 : b2 < 256) (ev2 : Option (MidiEvent C))
    (hp : (Parse t b2 ev2).parser.pstate_ = ParserHasData0) :
    (b < 0x80 ∧
      (e.type ≠ ProgramChange → e.type ≠ ChannelPressure →
        (ParseAll (Reset s0) calls).1.pstate_ = ParserHasData0 ∧ e.data1 = b ∧
        e.data0 = (ParseAll (Reset s0) calls).1.incoming_message_.data0) ∧
      (e.type = ProgramChange ∨ e.type = ChannelPressure →
        ((ParseAll (Reset s0) calls).1.pstate_ = ParserEmpty ∨
          (ParseAll (Reset s0) calls).1.pstate_ = ParserHasStatus) ∧ e.data0 = b)) ∧
    ((t.pstate_ = ParserHasData0 ∧ (Parse t b2 ev2).parser = t) ∨
      (t.pstate_ ≠ ParserHasData0 ∧ b2 < 0x80 ∧
        (Parse t b2 ev2).parser.incoming_message_.data0 = b2)) :=
  ⟨Parse_voice_event_source _ (Coupled_ParseAll calls (Reset s0) (Coupled_Reset s0)) b hb ev e
      hdid hev ((ChannelVoiceKind_iff _).1 hv),
    Parse_enters_HasData0 t b2 hb2 ev2 hp⟩

theorem voice_event_on_last_data_byte_witness :
    ((0x7F : Nat) < 0x80 ∧
      (noteOnEvent4.type ≠ ProgramChange → noteOnEvent4.type ≠ ChannelPressure →
        (ParseAll (Reset sysexParser4) [(0x95, none), (0x40, none)]).1.pstate_ =
          ParserHasData0 ∧
        noteOnEvent4.data1 = 0x7F ∧
        noteOnEvent4.data0 =
          (ParseAll (Reset sysexParser4)
            [(0x95, none), (0x40, none)]).1.incoming_message_.data0) ∧
      (noteOnEvent4.type = ProgramChange ∨ noteOnEvent4.type = ChannelPressure →
        ((ParseAll (Reset sysexParser4) [(0x95, none), (0x40, none)]).1.pstate_ =
            ParserEmpty ∨
          (ParseAll (Reset sysexParser4) [(0x95, none), (0x40, none)]).1.pstate_ =
            ParserHasStatus) ∧
        noteOnEvent4.data0 = 0x7F)) ∧
    (((⟨ParserHasStatus, zeroEvent 4, NoteOn⟩ : MidiParser 4).pstate_ = ParserHasData0 ∧
        (Parse (⟨ParserHasStatus, zeroEvent 4, NoteOn⟩ : MidiParser 4) 0x40 none).parser =
          ⟨ParserHasStatus, zeroEvent 4, NoteOn⟩) ∨
      ((⟨ParserHasStatus, zeroEvent 4, NoteOn⟩ : MidiParser 4).pstate_ ≠ ParserHasData0 ∧
        (0x40 : Nat) < 0x80 ∧
        (Parse (⟨ParserHasStatus, zeroEvent 4, NoteOn⟩ : MidiParser 4) 0x40
          none).parser.incoming_message_.data0 = 0x40)) :=
  voice_event_on_last_data_byte sysexParser4 [(0x95, none), (0x40, none)] 0x7F (by decide)
    (some (zeroEvent 4)) noteOnEvent4 (by decide) (by decide) (by decide)
    ⟨ParserHasStatus, zeroEvent 4, NoteOn⟩ 0x40 (by decide) none (by decide)

/-- C20: in every state reached from Reset by any run, in phase
ParserHasStatus or ParserHasData0 the running status is one of the seven
Channel Voice kinds and equals the type of the pending message; in phase
ParserHasData0 it is neither ProgramChange nor ChannelPressure, so the
velocity-0 test on running_status_ agrees with the type it rewrites.  Both
phases are reached (0x90 gives ParserHasStatus, 0x90, 0x40 gives
ParserHasData0). -/
theorem phase_status_coupling {C : Nat} (s0 : MidiParser C)
    (calls : List (Nat × Option (MidiEvent C))) :
    ((ParseAll (Reset s0) calls).1.pstate_ = ParserHasStatus ∨
        (ParseAll (Reset s0) calls).1.pstate_ = ParserHasData0 →
      ChannelVoiceKind (ParseAll (Reset s0) calls).1.running_status_ ∧
      (ParseAll (Reset s0) calls).1.incoming_message_.type =
        (ParseAll (Reset s0) calls).1.running_status_) ∧
    ((ParseAll (Reset s0) calls).1.pstate_ = ParserHasData0 →
      (ParseAll (Reset s0) calls).1.running_status_ ≠ ProgramChange ∧
      (ParseAll (Reset s0) calls).1.running_status_ ≠ ChannelPressure ∧
      ((ParseAll (Reset s0) calls).1.running_status_ = NoteOn ↔
        (ParseAll (Reset s0) calls).1.incoming_message_.type = NoteOn)) ∧
    (ParseAll (Reset s0) [(0x90, none)]).1.pstate_ = ParserHasStatus ∧
    (ParseAll (Reset s0) [(0x90, none), (0x40, none)]).1.pstate_ = ParserHasData0 := by
  have h := Coupled_ParseAll calls (Reset s0) (Coupled_Reset s0)
  obtain ⟨-, -, h3, h4, -⟩ := h
  refine ⟨?_, ?_, ?_, ?_⟩
  · intro hp
    rcases hp with hp | hp
    · exact ⟨(ChannelVoiceKind_iff _).2 (h3 hp).1, (h3 hp).2⟩
    · exact ⟨(ChannelVoiceKind_iff _).2 (h4 hp).1, (h4 hp).2.2.2.1⟩
  · intro hp
    obtain ⟨-, a2, a3, a4, -⟩ := h4 hp
    exact ⟨a3, a2, by rw [a4]⟩
  · have h1 : Parse (Reset s0) 0x90 none = _ :=
      Parse_voice_status (Reset s0) (fun h => ParserState.noConfusion h) NoteOn 0
        (by decide) (by decide) none
    rw [ParseAll_cons, ParseAll_nil, h1]
  · have h1 : Parse (Reset s0) 0x90 none = _ :=
      Parse_voice_status (Reset s0) (fun h => ParserState.noConfusion h) NoteOn 0
        (by decide) (by decide) none
    rw [ParseAll_cons, ParseAll_cons, ParseAll_nil, h1]
    rw [Parse_data_HasStatus _ rfl 0x40 (by decide) none]
    simp [NoteOn, ChannelPressure, ProgramChange]

/-! ## Termination and dead branches -/

/-- C19: for every state and byte, Parse returns, with room for one self-call
and already with room for none; the call goes through exactly one leaf of the
control flow, and that leaf is never the self-call of the ParserHasStatus
case, never the status-byte path of the ParserHasData0 case and never the
System Real-Time branch of the ParserEmpty case; and (byte & 0x70) >> 4 is at
most 7.  The instrumented body used for the leaves computes the same result
as the plain body. -/
theorem parse_terminates_dead_branches {C : Nat} (s : MidiParser C) (b : Nat)
    (ev : Option (MidiEvent C)) :
    ParseFuel 2 s b ev = some (Parse s b ev) ∧
    ParseFuel 1 s b ev = some (Parse s b ev) ∧
    (ParseTrace 2 s b ev).map Prod.fst = ParseFuel 2 s b ev ∧
    (∃ br : Branch, ParseTrace 2 s b ev = some (Parse s b ev, [br]) ∧
      br ≠ hasStatusRestart ∧ br ≠ hasData0Status ∧ br ≠ emptyStatusRealTime) ∧
    (b &&& kMessageMask) >>> 4 ≤ 7 :=
  ⟨ParseFuel_succ 1 s b ev, ParseFuel_succ 0 s b ev, ParseTrace_result 2 s b ev,
    ParseTrace_leaf 1 s b ev, kind_bits_le b⟩

end daisy
